import Mathlib

/-!
# Experimental API types (`pkg/expapi/types.go`)

`types.go` declares plain Go structs whose only behaviour is the wire shape
fixed by their `json:"..."` field tags.  This development embeds

* the Go value kinds the structs are built from (`int`, `string` as a
  sequence of bytes, nilable maps, slices and pointers),
* the record shape that `encoding/json` derives from a struct's tags
  (declaration order, `omitempty`, promotion of the fields of an embedded
  struct whose tag carries no name),
* every struct of `types.go`, field by field, with its tags,

and then states the properties of the data model as theorems.
-/

namespace expapi

/-! ## JSON records -/

/-- A JSON value.  Numbers are restricted to integers: every numeric field of
`types.go` is a Go `int`. -/
inductive Json where
  | null
  | bool (b : Bool)
  | num (n : Int)
  | str (s : String)
  | arr (xs : List Json)
  | obj (kvs : List (String × Json))

/-- Member lookup in an object body.  When a key is repeated the last binding
wins, as in the decoder of `encoding/json`. -/
def Json.lookup (k : String) : List (String × Json) → Option Json
  | [] => none
  | (k', v) :: rest =>
    match Json.lookup k rest with
    | some w => some w
    | none => if k' = k then some v else none

/-- The keys of an object body, in order. -/
def Json.keys (kvs : List (String × Json)) : List String := kvs.map Prod.fst

/-- The member of a JSON value under key `k`; `none` when the value is not an
object or has no such member. -/
def Json.member (k : String) : Json → Option Json
  | .obj kvs => Json.lookup k kvs
  | _ => none

/-- One struct field as `encoding/json` sees it: the key from the tag, whether
the tag carries `omitempty`, whether the current value is empty in the sense
of `isEmptyValue` (false, 0, nil pointer, nil interface, zero-length array,
slice, map or string; a struct value is never empty), and the encoded value. -/
structure Field where
  key : String
  omitempty : Bool
  empty : Bool
  value : Json

/-- A field is left out of the record when its tag says `omitempty` and its
value is empty. -/
def Field.omitted (f : Field) : Bool := f.omitempty && f.empty

/-- The object body written for a list of fields: fields in declaration order,
omitted ones skipped. -/
def marshalFields : List Field → List (String × Json)
  | [] => []
  | f :: fs => if f.omitted then marshalFields fs else (f.key, f.value) :: marshalFields fs

/-- Decoding of one struct field from an object body: a missing key leaves the
field at its zero value, otherwise the member is decoded. -/
def decodeField {α : Type} (dec : Json → Option α) (zero : α)
    (kvs : List (String × Json)) (key : String) : Option α :=
  match Json.lookup key kvs with
  | none => some zero
  | some v => dec v

/-! ## Go value kinds -/

/-- The range of a Go `int` on a 64-bit platform. -/
def intInRange (n : Int) : Prop := -9223372036854775808 ≤ n ∧ n ≤ 9223372036854775807

instance (n : Int) : Decidable (intInRange n) := by
  unfold intInRange
  exact inferInstance

/-- Encoding of an `int`. -/
def encodeInt (n : Int) : Json := .num n

/-- Decoding into an `int`: a number that fits, or `null` (which leaves the
zero value); anything else is a type error. -/
def decodeInt : Json → Option Int
  | .num n => if intInRange n then some n else none
  | .null => some 0
  | _ => none

/-! ### Strings

A Go `string` is a sequence of bytes, not necessarily the UTF-8 form of a
text.  A JSON string is a text.  The encoder of `encoding/json` reads a Go
string rune by rune with `utf8.DecodeRuneInString` and writes U+FFFD for every
byte that does not start a well-formed sequence; the decoder stores the UTF-8
form of the text. -/

/-- A byte. -/
abbrev Byte := Fin 256

/-- A Go `string`: its bytes. -/
abbrev GoString := List Byte

/-- The low 8 bits of a number. -/
def byteOf (n : Nat) : Byte := ⟨n % 256, Nat.mod_lt _ (by decide)⟩

/-- The UTF-8 form of one rune (`utf8.EncodeRune`): one to four bytes. -/
def utf8EncodeRune (c : Char) : List Byte :=
  let r := c.toNat
  if r < 128 then [byteOf r]
  else if r < 2048 then [byteOf (192 + r / 64), byteOf (128 + r % 64)]
  else if r < 65536 then
    [byteOf (224 + r / 4096), byteOf (128 + r / 64 % 64), byteOf (128 + r % 64)]
  else
    [byteOf (240 + r / 262144), byteOf (128 + r / 4096 % 64), byteOf (128 + r / 64 % 64),
      byteOf (128 + r % 64)]

/-- The UTF-8 form of a text. -/
def utf8Bytes : List Char → GoString
  | [] => []
  | c :: cs => utf8EncodeRune c ++ utf8Bytes cs

/-- The replacement rune U+FFFD (`utf8.RuneError`). -/
def runeError : Char := Char.ofNat 65533

/-- The lowest second byte accepted after the first byte `b0` of a sequence of
three or four bytes. -/
def acceptLo (b0 : Nat) : Nat := if b0 = 224 then 160 else if b0 = 240 then 144 else 128

/-- The highest second byte accepted after the first byte `b0`. -/
def acceptHi (b0 : Nat) : Nat := if b0 = 237 then 159 else if b0 = 244 then 143 else 191

/-- A continuation byte, `0x80` to `0xBF`. -/
def isContinuation (b : Byte) : Prop := 128 ≤ b.val ∧ b.val ≤ 191

instance (b : Byte) : Decidable (isContinuation b) := by
  unfold isContinuation
  exact inferInstance

/-- The first rune of a byte sequence and its width (`utf8.DecodeRune`): a
byte that does not start a well-formed sequence gives U+FFFD with width 1. -/
def decodeRune : GoString → Char × Nat
  | [] => (runeError, 0)
  | b0 :: tail =>
    if b0.val < 128 then (Char.ofNat b0.val, 1)
    else if b0.val < 194 then (runeError, 1)
    else if b0.val < 224 then
      match tail with
      | b1 :: _ =>
        if isContinuation b1 then (Char.ofNat (b0.val % 32 * 64 + b1.val % 64), 2)
        else (runeError, 1)
      | [] => (runeError, 1)
    else if b0.val < 240 then
      match tail with
      | b1 :: b2 :: _ =>
        if acceptLo b0.val ≤ b1.val ∧ b1.val ≤ acceptHi b0.val ∧ isContinuation b2 then
          (Char.ofNat (b0.val % 16 * 4096 + b1.val % 64 * 64 + b2.val % 64), 3)
        else (runeError, 1)
      | _ => (runeError, 1)
    else if b0.val < 245 then
      match tail with
      | b1 :: b2 :: b3 :: _ =>
        if acceptLo b0.val ≤ b1.val ∧ b1.val ≤ acceptHi b0.val ∧ isContinuation b2
            ∧ isContinuation b3 then
          (Char.ofNat
            (b0.val % 8 * 262144 + b1.val % 64 * 4096 + b2.val % 64 * 64 + b3.val % 64), 4)
        else (runeError, 1)
      | _ => (runeError, 1)
    else (runeError, 1)

/-- The runes of a byte sequence from its start, after skipping the bytes that
belong to the rune decoded before. -/
def utf8TextFrom : Nat → GoString → List Char
  | _, [] => []
  | skip + 1, _ :: tail => utf8TextFrom skip tail
  | 0, b0 :: tail =>
    (decodeRune (b0 :: tail)).1 :: utf8TextFrom ((decodeRune (b0 :: tail)).2 - 1) tail

/-- The text the encoder writes for a Go string. -/
def utf8Text (s : GoString) : List Char := utf8TextFrom 0 s

/-- A Go string that is the UTF-8 form of a text. -/
def GoString.ValidUTF8 (s : GoString) : Prop := ∃ cs : List Char, s = utf8Bytes cs

/-- The Go string of a text, as a string literal of the source denotes it. -/
def goString (s : String) : GoString := utf8Bytes s.toList

/-- Encoding of a `string`. -/
def encodeString (s : GoString) : Json := .str (String.mk (utf8Text s))

/-- Decoding into a `string`. -/
def decodeString : Json → Option GoString
  | .str s => some (utf8Bytes s.toList)
  | .null => some []
  | _ => none

/-- A Go pointer field: `none` is the nil pointer. -/
abbrev Ptr (α : Type) := Option α

/-- A Go slice: `none` is the nil slice, `some []` an allocated slice of
length 0. -/
abbrev Slice (α : Type) := Option (List α)

/-- A Go `map[string]string`: `none` is the nil map, `some m` an allocated map
whose entries are listed by ascending key. -/
abbrev StringMap := Option (List (GoString × GoString))

/-- The length of a slice (`len` of a nil slice is 0). -/
def Slice.len {α : Type} (s : Slice α) : Nat := (s.getD []).length

/-- The entries of a slice (a nil slice has none). -/
def Slice.elems {α : Type} (s : Slice α) : List α := s.getD []

/-- The number of entries of a map (`len` of a nil map is 0). -/
def StringMap.len (m : StringMap) : Nat := (m.getD []).length

/-- The entry list of an allocated map is a map: keys strictly ascending. -/
def StringMap.WellFormed (m : StringMap) : Prop :=
  ((m.getD []).map Prod.fst).Pairwise (· < ·)

/-- Every key and every value of the map is the UTF-8 form of a text. -/
def StringMap.ValidUTF8 (m : StringMap) : Prop :=
  ∀ e ∈ m.getD [], e.1.ValidUTF8 ∧ e.2.ValidUTF8

/-- Encoding of a pointer: `null` for nil, else the pointee. -/
def encodePtr {α : Type} (enc : α → Json) : Ptr α → Json
  | none => .null
  | some a => enc a

/-- Decoding into a pointer: `null` gives nil, anything else is decoded into
a fresh pointee. -/
def decodePtr {α : Type} (dec : Json → Option α) : Json → Option (Ptr α)
  | .null => some none
  | v => (dec v).map some

/-- Encoding of a slice of structs: `null` for the nil slice, else an array. -/
def encodeSlice {α : Type} (enc : α → Json) : Slice α → Json
  | none => .null
  | some xs => .arr (xs.map enc)

/-- The elements of an array are decoded one after the other; the first
failure fails the whole array. -/
def decodeElems {α : Type} (dec : Json → Option α) : List Json → Option (List α)
  | [] => some []
  | j :: rest =>
    match dec j with
    | some a => (decodeElems dec rest).map (a :: ·)
    | none => none

/-- Decoding into a slice: `null` gives the nil slice, an array gives an
allocated slice (also when the array is empty). -/
def decodeSlice {α : Type} (dec : Json → Option α) : Json → Option (Slice α)
  | .null => some none
  | .arr xs => (decodeElems dec xs).map some
  | _ => none

/-- Assignment `m[k] = v` on the ascending entry list of a map. -/
def mapAssign (k v : GoString) : List (GoString × GoString) → List (GoString × GoString)
  | [] => [(k, v)]
  | (k', v') :: rest =>
    if k < k' then (k, v) :: (k', v') :: rest
    else if k = k' then (k, v) :: rest
    else (k', v') :: mapAssign k v rest

/-- Encoding of a `map[string]string`: `null` for the nil map, else an object
with the entries by ascending key, keys and values written as strings are. -/
def encodeStringMap : StringMap → Json
  | none => .null
  | some m => .obj (m.map fun e => (String.mk (utf8Text e.1), encodeString e.2))

/-- The decoder walks the members of the object and assigns each into the
map. -/
def decodeMapEntries : List (String × Json) → List (GoString × GoString) →
    Option (List (GoString × GoString))
  | [], acc => some acc
  | (k, v) :: rest, acc =>
    match decodeString v with
    | some s => decodeMapEntries rest (mapAssign (utf8Bytes k.toList) s acc)
    | none => none

/-- Decoding into a `map[string]string`. -/
def decodeStringMap : Json → Option StringMap
  | .null => some none
  | .obj kvs => (decodeMapEntries kvs []).map some
  | _ => none

/-! ## Byte slices: base64 (`encoding/base64`, `StdEncoding`) -/

/-- The standard base64 alphabet. -/
def base64Alphabet : List Char :=
  "ABCDEFGHIJKLMNOPQRSTUVWXYZabcdefghijklmnopqrstuvwxyz0123456789+/".toList

/-- The character of a 6-bit value. -/
def base64Char (n : Nat) : Char := base64Alphabet.getD n 'A'

/-- The 6-bit value of a character of the alphabet. -/
def base64Value (c : Char) : Option Nat :=
  let i := base64Alphabet.indexOf c
  if i < 64 then some i else none

/-- Base64 with padding: three bytes become four characters. -/
def base64Encode : List Byte → List Char
  | [] => []
  | [a] =>
    let n := a.val * 65536
    [base64Char (n / 262144 % 64), base64Char (n / 4096 % 64), '=', '=']
  | [a, b] =>
    let n := a.val * 65536 + b.val * 256
    [base64Char (n / 262144 % 64), base64Char (n / 4096 % 64), base64Char (n / 64 % 64), '=']
  | a :: b :: c :: rest =>
    let n := a.val * 65536 + b.val * 256 + c.val
    base64Char (n / 262144 % 64) :: base64Char (n / 4096 % 64) :: base64Char (n / 64 % 64)
      :: base64Char (n % 64) :: base64Encode rest

/-- Base64 decoding of padded quanta; padding is only accepted in the last
quantum. -/
def base64Decode : List Char → Option (List Byte)
  | [] => some []
  | c0 :: c1 :: c2 :: c3 :: rest =>
    match base64Value c0, base64Value c1 with
    | some s0, some s1 =>
      if c2 = '=' then
        if c3 = '=' ∧ rest = [] then some [byteOf ((s0 * 262144 + s1 * 4096) / 65536)] else none
      else
        match base64Value c2 with
        | some s2 =>
          if c3 = '=' then
            if rest = [] then
              let n := s0 * 262144 + s1 * 4096 + s2 * 64
              some [byteOf (n / 65536), byteOf (n / 256)]
            else none
          else
            match base64Value c3 with
            | some s3 =>
              let n := s0 * 262144 + s1 * 4096 + s2 * 64 + s3
              match base64Decode rest with
              | some tail => some (byteOf (n / 65536) :: byteOf (n / 256) :: byteOf n :: tail)
              | none => none
            | none => none
        | none => none
    | _, _ => none
  | _ => none

/-- Encoding of a `[]byte`: `null` for the nil slice, else the base64 text. -/
def encodeBytes : Slice Byte → Json
  | none => .null
  | some bs => .str (String.mk (base64Encode bs))

/-- Decoding into a `[]byte`. -/
def decodeBytes : Json → Option (Slice Byte)
  | .null => some none
  | .str s => (base64Decode s.toList).map some
  | _ => none

/-! ## Types declared outside `types.go` -/

/-- The wire behaviour of a type declared in another package. -/
structure Codec (α : Type) where
  /-- The zero value. -/
  zero : α
  /-- The encoder (`MarshalJSON` or the struct encoder). -/
  encode : α → Json
  /-- The decoder. -/
  decode : Json → Option α

/-- A value the codec of its own type reads back unchanged. -/
def Codec.RoundTrips {α : Type} (c : Codec α) (a : α) : Prop :=
  c.decode (c.encode a) = some a

/-- Modelled from the spec: `api.ObjectMeta`, `api.ListMeta`,
`resource.Quantity` and `util.Time` are declared in `pkg/api`,
`pkg/api/resource` and `pkg/util`, which are not part of the source at hand.
They are the external collaborators of the spec (the object and list metadata
blocks of the envelope, the unit-aware quantity, the timestamp) and are taken
as parameters: a carrier type and its codec.  All four are Go struct types, so
`omitempty` never drops a field of one of these types. -/
structure External where
  /-- Carrier of `api.ObjectMeta`. -/
  ObjectMeta : Type
  /-- Carrier of `api.ListMeta`. -/
  ListMeta : Type
  /-- Carrier of `resource.Quantity`. -/
  Quantity : Type
  /-- Carrier of `util.Time`. -/
  Time : Type
  /-- Codec of `api.ObjectMeta`. -/
  objectMeta : Codec ObjectMeta
  /-- Codec of `api.ListMeta`. -/
  listMeta : Codec ListMeta
  /-- Codec of `resource.Quantity`. -/
  quantity : Codec Quantity
  /-- Codec of `util.Time`. -/
  time : Codec Time

/-- Modelled from the spec: `api.TypeMeta` is declared in `pkg/api`, which is
not part of the source at hand.  It is the type-identity header of the
envelope (kind and version tag): two strings written under `kind` and
`apiVersion`, each left out when empty. -/
structure TypeMeta where
  Kind : GoString
  APIVersion : GoString
deriving DecidableEq, Repr

/-- The fields `api.TypeMeta` contributes to the record of a struct that
embeds it with `json:",inline"`: the tag has no name, so the two fields are
promoted to the embedding record. -/
def TypeMeta.fields (t : TypeMeta) : List Field :=
  [⟨"kind", true, t.Kind.length == 0, encodeString t.Kind⟩,
   ⟨"apiVersion", true, t.APIVersion.length == 0, encodeString t.APIVersion⟩]

/-- Decoding of the promoted fields from the embedding record. -/
def TypeMeta.decodeFrom (kvs : List (String × Json)) : Option TypeMeta :=
  (decodeField decodeString [] kvs "kind").bind fun k =>
  (decodeField decodeString [] kvs "apiVersion").bind fun v =>
  some ⟨k, v⟩

/-- Modelled from the spec: `api.ResourceName` is declared in `pkg/api`; it is
the resource-name of a consumption pair, a string type. -/
abbrev ResourceName := GoString

/-! ## The structs of `types.go` -/

/-- ScaleSpec describes the attributes a Scale subresource. -/
structure ScaleSpec where
  /-- Tag `json:"replicas,omitempty"`. -/
  Replicas : Int
deriving DecidableEq, Repr

/-- ScaleStatus represents the current status of a Scale subresource. -/
structure ScaleStatus where
  /-- Tag `json:"replicas"`. -/
  Replicas : Int
  /-- Tag `json:"selector,omitempty"`. -/
  Selector : StringMap
deriving DecidableEq, Repr

/-- Scale subresource. -/
structure Scale (E : External) where
  /-- Embedded, tag `json:",inline"`. -/
  TypeMeta : TypeMeta
  /-- Embedded, tag `json:"metadata,omitempty"`. -/
  ObjectMeta : E.ObjectMeta
  /-- Tag `json:"spec,omitempty"`. -/
  Spec : ScaleSpec
  /-- Tag `json:"status,omitempty"`. -/
  Status : ScaleStatus

/-- Dummy definition. -/
structure ReplicationControllerDummy where
  /-- Embedded, tag `json:",inline"`. -/
  TypeMeta : TypeMeta
deriving DecidableEq, Repr

/-- SubresourceReference contains enough information to let you inspect or
modify the referred subresource.  All five tags carry `omitempty`. -/
structure SubresourceReference where
  Kind : GoString
  Namespace : GoString
  Name : GoString
  APIVersion : GoString
  Subresource : GoString
deriving DecidableEq, Repr

/-- ResourceConsumption is an object for specifying average resource
consumption of a particular resource. -/
structure ResourceConsumption (E : External) where
  /-- Tag `json:"resource,omitempty"`. -/
  Resource : ResourceName
  /-- Tag `json:"quantity,omitempty"`. -/
  Quantity : E.Quantity

/-- HorizontalPodAutoscalerSpec is the specification of a horizontal pod
autoscaler. -/
structure HorizontalPodAutoscalerSpec (E : External) where
  /-- Type `*SubresourceReference`, tag `json:"scaleRef"`. -/
  ScaleRef : Ptr SubresourceReference
  /-- Tag `json:"minCount"`. -/
  MinCount : Int
  /-- Tag `json:"maxCount"`. -/
  MaxCount : Int
  /-- Tag `json:"target"`. -/
  Target : ResourceConsumption E

/-- HorizontalPodAutoscalerStatus contains the current status of a horizontal
pod autoscaler. -/
structure HorizontalPodAutoscalerStatus (E : External) where
  /-- Tag `json:"currentReplicas"`. -/
  CurrentReplicas : Int
  /-- Tag `json:"desiredReplicas"`. -/
  DesiredReplicas : Int
  /-- Tag `json:"currentConsumption"`. -/
  CurrentConsumption : ResourceConsumption E
  /-- Type `*util.Time`, tag `json:"lastScaleTimestamp,omitempty"`. -/
  LastScaleTimestamp : Ptr E.Time

/-- HorizontalPodAutoscaler represents the configuration of a horizontal pod
autoscaler. -/
structure HorizontalPodAutoscaler (E : External) where
  /-- Embedded, tag `json:",inline"`. -/
  TypeMeta : TypeMeta
  /-- Embedded, tag `json:"metadata,omitempty"`. -/
  ObjectMeta : E.ObjectMeta
  /-- Tag `json:"spec,omitempty"`. -/
  Spec : HorizontalPodAutoscalerSpec E
  /-- Tag `json:"status,omitempty"`. -/
  Status : HorizontalPodAutoscalerStatus E

/-- HorizontalPodAutoscalerList is a collection of pod autoscalers. -/
structure HorizontalPodAutoscalerList (E : External) where
  /-- Embedded, tag `json:",inline"`. -/
  TypeMeta : TypeMeta
  /-- Embedded, tag `json:"metadata,omitempty"`. -/
  ListMeta : E.ListMeta
  /-- Tag `json:"items"`. -/
  Items : Slice (HorizontalPodAutoscaler E)

/-- An APIVersion represents a single concrete version of an object model.
The description tag of `APIGroup` reads: The API group to add this object
into, default 'experimental'. -/
structure APIVersion where
  /-- Tag `json:"name,omitempty"`. -/
  Name : GoString
  /-- Tag `json:"apiGroup,omitempty"`. -/
  APIGroup : GoString
deriving DecidableEq, Repr

/-- A ThirdPartyResource is a generic representation of a resource, it is used
by add-ons and plugins to add new resource types to the API.  It consists of
one or more Versions of the api. -/
structure ThirdPartyResource (E : External) where
  /-- Embedded, tag `json:",inline"`. -/
  TypeMeta : TypeMeta
  /-- Embedded, tag `json:"metadata,omitempty"`. -/
  ObjectMeta : E.ObjectMeta
  /-- Tag `json:"description,omitempty"`. -/
  Description : GoString
  /-- Tag `json:"versions,omitempty"`. -/
  Versions : Slice APIVersion

/-- ThirdPartyResourceList is a list of third-party resources. -/
structure ThirdPartyResourceList (E : External) where
  /-- Embedded, tag `json:",inline"`. -/
  TypeMeta : TypeMeta
  /-- Embedded, tag `json:"metadata,omitempty"`. -/
  ListMeta : E.ListMeta
  /-- Tag `json:"items"`. -/
  Items : Slice (ThirdPartyResource E)

/-- An internal object, used for versioned storage in etcd.  Not exposed to the
end user. -/
structure ThirdPartyResourceData (E : External) where
  /-- Embedded, tag `json:",inline"`. -/
  TypeMeta : TypeMeta
  /-- Embedded, tag `json:"metadata,omitempty"`. -/
  ObjectMeta : E.ObjectMeta
  /-- Tag `json:"name,omitempty"`, description "the raw JSON data for this
  data". -/
  Data : Slice Byte

/-! ## Records of the structs

For each struct: its zero value, its fields as `encoding/json` sees them (key
and `omitempty` read off the tag, emptiness by the kind of the Go type), the
encoder and the decoder. -/

/-- The zero value of `api.TypeMeta`. -/
def TypeMeta.zero : TypeMeta := ⟨[], []⟩

/-- The zero value of `ScaleSpec`. -/
def ScaleSpec.zero : ScaleSpec := ⟨0⟩

/-- The fields of `ScaleSpec`. -/
def ScaleSpec.fields (x : ScaleSpec) : List Field :=
  [⟨"replicas", true, x.Replicas == 0, encodeInt x.Replicas⟩]

/-- The record of a `ScaleSpec`. -/
def ScaleSpec.encode (x : ScaleSpec) : Json := .obj (marshalFields x.fields)

/-- Decoding into a `ScaleSpec`. -/
def ScaleSpec.decode : Json → Option ScaleSpec
  | .obj kvs =>
    (decodeField decodeInt 0 kvs "replicas").bind fun r =>
    some ⟨r⟩
  | .null => some ScaleSpec.zero
  | _ => none

/-- The zero value of `ScaleStatus`. -/
def ScaleStatus.zero : ScaleStatus := ⟨0, none⟩

/-- The fields of `ScaleStatus`. -/
def ScaleStatus.fields (x : ScaleStatus) : List Field :=
  [⟨"replicas", false, x.Replicas == 0, encodeInt x.Replicas⟩,
   ⟨"selector", true, x.Selector.len == 0, encodeStringMap x.Selector⟩]

/-- The record of a `ScaleStatus`. -/
def ScaleStatus.encode (x : ScaleStatus) : Json := .obj (marshalFields x.fields)

/-- Decoding into a `ScaleStatus`. -/
def ScaleStatus.decode : Json → Option ScaleStatus
  | .obj kvs =>
    (decodeField decodeInt 0 kvs "replicas").bind fun r =>
    (decodeField decodeStringMap none kvs "selector").bind fun s =>
    some ⟨r, s⟩
  | .null => some ScaleStatus.zero
  | _ => none

/-- The zero value of `Scale`. -/
def Scale.zero (E : External) : Scale E :=
  ⟨TypeMeta.zero, E.objectMeta.zero, ScaleSpec.zero, ScaleStatus.zero⟩

/-- The fields of `Scale`: the promoted fields of `api.TypeMeta`, then
`metadata`, `spec`, `status`.  The last three are of struct type. -/
def Scale.fields {E : External} (x : Scale E) : List Field :=
  x.TypeMeta.fields ++
  [⟨"metadata", true, false, E.objectMeta.encode x.ObjectMeta⟩,
   ⟨"spec", true, false, x.Spec.encode⟩,
   ⟨"status", true, false, x.Status.encode⟩]

/-- The record of a `Scale`. -/
def Scale.encode {E : External} (x : Scale E) : Json := .obj (marshalFields x.fields)

/-- Decoding into a `Scale`. -/
def Scale.decode (E : External) : Json → Option (Scale E)
  | .obj kvs =>
    (TypeMeta.decodeFrom kvs).bind fun t =>
    (decodeField E.objectMeta.decode E.objectMeta.zero kvs "metadata").bind fun m =>
    (decodeField ScaleSpec.decode ScaleSpec.zero kvs "spec").bind fun sp =>
    (decodeField ScaleStatus.decode ScaleStatus.zero kvs "status").bind fun st =>
    some ⟨t, m, sp, st⟩
  | .null => some (Scale.zero E)
  | _ => none

/-- The zero value of `ReplicationControllerDummy`. -/
def ReplicationControllerDummy.zero : ReplicationControllerDummy := ⟨TypeMeta.zero⟩

/-- The fields of `ReplicationControllerDummy`: only the promoted ones. -/
def ReplicationControllerDummy.fields (x : ReplicationControllerDummy) : List Field :=
  x.TypeMeta.fields

/-- The record of a `ReplicationControllerDummy`. -/
def ReplicationControllerDummy.encode (x : ReplicationControllerDummy) : Json :=
  .obj (marshalFields x.fields)

/-- Decoding into a `ReplicationControllerDummy`. -/
def ReplicationControllerDummy.decode : Json → Option ReplicationControllerDummy
  | .obj kvs =>
    (TypeMeta.decodeFrom kvs).bind fun t =>
    some ⟨t⟩
  | .null => some ReplicationControllerDummy.zero
  | _ => none

/-- The zero value of `SubresourceReference`. -/
def SubresourceReference.zero : SubresourceReference := ⟨[], [], [], [], []⟩

/-- The fields of `SubresourceReference`. -/
def SubresourceReference.fields (x : SubresourceReference) : List Field :=
  [⟨"kind", true, x.Kind.length == 0, encodeString x.Kind⟩,
   ⟨"namespace", true, x.Namespace.length == 0, encodeString x.Namespace⟩,
   ⟨"name", true, x.Name.length == 0, encodeString x.Name⟩,
   ⟨"apiVersion", true, x.APIVersion.length == 0, encodeString x.APIVersion⟩,
   ⟨"subresource", true, x.Subresource.length == 0, encodeString x.Subresource⟩]

/-- The record of a `SubresourceReference`. -/
def SubresourceReference.encode (x : SubresourceReference) : Json :=
  .obj (marshalFields x.fields)

/-- Decoding into a `SubresourceReference`. -/
def SubresourceReference.decode : Json → Option SubresourceReference
  | .obj kvs =>
    (decodeField decodeString [] kvs "kind").bind fun k =>
    (decodeField decodeString [] kvs "namespace").bind fun ns =>
    (decodeField decodeString [] kvs "name").bind fun n =>
    (decodeField decodeString [] kvs "apiVersion").bind fun v =>
    (decodeField decodeString [] kvs "subresource").bind fun sub =>
    some ⟨k, ns, n, v, sub⟩
  | .null => some SubresourceReference.zero
  | _ => none

/-- The zero value of `ResourceConsumption`. -/
def ResourceConsumption.zero (E : External) : ResourceConsumption E :=
  ⟨[], E.quantity.zero⟩

/-- The fields of `ResourceConsumption`; `quantity` is of struct type. -/
def ResourceConsumption.fields {E : External} (x : ResourceConsumption E) : List Field :=
  [⟨"resource", true, x.Resource.length == 0, encodeString x.Resource⟩,
   ⟨"quantity", true, false, E.quantity.encode x.Quantity⟩]

/-- The record of a `ResourceConsumption`. -/
def ResourceConsumption.encode {E : External} (x : ResourceConsumption E) : Json :=
  .obj (marshalFields x.fields)

/-- Decoding into a `ResourceConsumption`. -/
def ResourceConsumption.decode (E : External) : Json → Option (ResourceConsumption E)
  | .obj kvs =>
    (decodeField decodeString [] kvs "resource").bind fun r =>
    (decodeField E.quantity.decode E.quantity.zero kvs "quantity").bind fun q =>
    some ⟨r, q⟩
  | .null => some (ResourceConsumption.zero E)
  | _ => none

/-- The zero value of `HorizontalPodAutoscalerSpec`: the pointer is nil. -/
def HorizontalPodAutoscalerSpec.zero (E : External) : HorizontalPodAutoscalerSpec E :=
  ⟨none, 0, 0, ResourceConsumption.zero E⟩

/-- The fields of `HorizontalPodAutoscalerSpec`; no tag carries `omitempty`. -/
def HorizontalPodAutoscalerSpec.fields {E : External} (x : HorizontalPodAutoscalerSpec E) :
    List Field :=
  [⟨"scaleRef", false, x.ScaleRef.isNone, encodePtr SubresourceReference.encode x.ScaleRef⟩,
   ⟨"minCount", false, x.MinCount == 0, encodeInt x.MinCount⟩,
   ⟨"maxCount", false, x.MaxCount == 0, encodeInt x.MaxCount⟩,
   ⟨"target", false, false, x.Target.encode⟩]

/-- The record of a `HorizontalPodAutoscalerSpec`. -/
def HorizontalPodAutoscalerSpec.encode {E : External} (x : HorizontalPodAutoscalerSpec E) :
    Json :=
  .obj (marshalFields x.fields)

/-- Decoding into a `HorizontalPodAutoscalerSpec`. -/
def HorizontalPodAutoscalerSpec.decode (E : External) :
    Json → Option (HorizontalPodAutoscalerSpec E)
  | .obj kvs =>
    (decodeField (decodePtr SubresourceReference.decode) none kvs "scaleRef").bind fun r =>
    (decodeField decodeInt 0 kvs "minCount").bind fun lo =>
    (decodeField decodeInt 0 kvs "maxCount").bind fun hi =>
    (decodeField (ResourceConsumption.decode E) (ResourceConsumption.zero E) kvs
      "target").bind fun t =>
    some ⟨r, lo, hi, t⟩
  | .null => some (HorizontalPodAutoscalerSpec.zero E)
  | _ => none

/-- The zero value of `HorizontalPodAutoscalerStatus`. -/
def HorizontalPodAutoscalerStatus.zero (E : External) : HorizontalPodAutoscalerStatus E :=
  ⟨0, 0, ResourceConsumption.zero E, none⟩

/-- The fields of `HorizontalPodAutoscalerStatus`. -/
def HorizontalPodAutoscalerStatus.fields {E : External}
    (x : HorizontalPodAutoscalerStatus E) : List Field :=
  [⟨"currentReplicas", false, x.CurrentReplicas == 0, encodeInt x.CurrentReplicas⟩,
   ⟨"desiredReplicas", false, x.DesiredReplicas == 0, encodeInt x.DesiredReplicas⟩,
   ⟨"currentConsumption", false, false, x.CurrentConsumption.encode⟩,
   ⟨"lastScaleTimestamp", true, x.LastScaleTimestamp.isNone,
     encodePtr E.time.encode x.LastScaleTimestamp⟩]

/-- The record of a `HorizontalPodAutoscalerStatus`. -/
def HorizontalPodAutoscalerStatus.encode {E : External}
    (x : HorizontalPodAutoscalerStatus E) : Json :=
  .obj (marshalFields x.fields)

/-- Decoding into a `HorizontalPodAutoscalerStatus`. -/
def HorizontalPodAutoscalerStatus.decode (E : External) :
    Json → Option (HorizontalPodAutoscalerStatus E)
  | .obj kvs =>
    (decodeField decodeInt 0 kvs "currentReplicas").bind fun c =>
    (decodeField decodeInt 0 kvs "desiredReplicas").bind fun d =>
    (decodeField (ResourceConsumption.decode E) (ResourceConsumption.zero E) kvs
      "currentConsumption").bind fun cc =>
    (decodeField (decodePtr E.time.decode) none kvs "lastScaleTimestamp").bind fun ts =>
    some ⟨c, d, cc, ts⟩
  | .null => some (HorizontalPodAutoscalerStatus.zero E)
  | _ => none

/-- The zero value of `HorizontalPodAutoscaler`. -/
def HorizontalPodAutoscaler.zero (E : External) : HorizontalPodAutoscaler E :=
  ⟨TypeMeta.zero, E.objectMeta.zero, HorizontalPodAutoscalerSpec.zero E,
   HorizontalPodAutoscalerStatus.zero E⟩

/-- The fields of `HorizontalPodAutoscaler`. -/
def HorizontalPodAutoscaler.fields {E : External} (x : HorizontalPodAutoscaler E) :
    List Field :=
  x.TypeMeta.fields ++
  [⟨"metadata", true, false, E.objectMeta.encode x.ObjectMeta⟩,
   ⟨"spec", true, false, x.Spec.encode⟩,
   ⟨"status", true, false, x.Status.encode⟩]

/-- The record of a `HorizontalPodAutoscaler`. -/
def HorizontalPodAutoscaler.encode {E : External} (x : HorizontalPodAutoscaler E) : Json :=
  .obj (marshalFields x.fields)

/-- Decoding into a `HorizontalPodAutoscaler`. -/
def HorizontalPodAutoscaler.decode (E : External) : Json → Option (HorizontalPodAutoscaler E)
  | .obj kvs =>
    (TypeMeta.decodeFrom kvs).bind fun t =>
    (decodeField E.objectMeta.decode E.objectMeta.zero kvs "metadata").bind fun m =>
    (decodeField (HorizontalPodAutoscalerSpec.decode E) (HorizontalPodAutoscalerSpec.zero E)
      kvs "spec").bind fun sp =>
    (decodeField (HorizontalPodAutoscalerStatus.decode E)
      (HorizontalPodAutoscalerStatus.zero E) kvs "status").bind fun st =>
    some ⟨t, m, sp, st⟩
  | .null => some (HorizontalPodAutoscaler.zero E)
  | _ => none

/-- The zero value of `HorizontalPodAutoscalerList`. -/
def HorizontalPodAutoscalerList.zero (E : External) : HorizontalPodAutoscalerList E :=
  ⟨TypeMeta.zero, E.listMeta.zero, none⟩

/-- The fields of `HorizontalPodAutoscalerList`. -/
def HorizontalPodAutoscalerList.fields {E : External} (x : HorizontalPodAutoscalerList E) :
    List Field :=
  x.TypeMeta.fields ++
  [⟨"metadata", true, false, E.listMeta.encode x.ListMeta⟩,
   ⟨"items", false, x.Items.len == 0, encodeSlice HorizontalPodAutoscaler.encode x.Items⟩]

/-- The record of a `HorizontalPodAutoscalerList`. -/
def HorizontalPodAutoscalerList.encode {E : External} (x : HorizontalPodAutoscalerList E) :
    Json :=
  .obj (marshalFields x.fields)

/-- Decoding into a `HorizontalPodAutoscalerList`. -/
def HorizontalPodAutoscalerList.decode (E : External) :
    Json → Option (HorizontalPodAutoscalerList E)
  | .obj kvs =>
    (TypeMeta.decodeFrom kvs).bind fun t =>
    (decodeField E.listMeta.decode E.listMeta.zero kvs "metadata").bind fun m =>
    (decodeField (decodeSlice (HorizontalPodAutoscaler.decode E)) none kvs "items").bind
      fun items =>
    some ⟨t, m, items⟩
  | .null => some (HorizontalPodAutoscalerList.zero E)
  | _ => none

/-- The zero value of `APIVersion`. -/
def APIVersion.zero : APIVersion := ⟨[], []⟩

/-- The fields of `APIVersion`. -/
def APIVersion.fields (x : APIVersion) : List Field :=
  [⟨"name", true, x.Name.length == 0, encodeString x.Name⟩,
   ⟨"apiGroup", true, x.APIGroup.length == 0, encodeString x.APIGroup⟩]

/-- The record of an `APIVersion`. -/
def APIVersion.encode (x : APIVersion) : Json := .obj (marshalFields x.fields)

/-- Decoding into an `APIVersion`. -/
def APIVersion.decode : Json → Option APIVersion
  | .obj kvs =>
    (decodeField decodeString [] kvs "name").bind fun n =>
    (decodeField decodeString [] kvs "apiGroup").bind fun g =>
    some ⟨n, g⟩
  | .null => some APIVersion.zero
  | _ => none

/-- The zero value of `ThirdPartyResource`. -/
def ThirdPartyResource.zero (E : External) : ThirdPartyResource E :=
  ⟨TypeMeta.zero, E.objectMeta.zero, [], none⟩

/-- The fields of `ThirdPartyResource`. -/
def ThirdPartyResource.fields {E : External} (x : ThirdPartyResource E) : List Field :=
  x.TypeMeta.fields ++
  [⟨"metadata", true, false, E.objectMeta.encode x.ObjectMeta⟩,
   ⟨"description", true, x.Description.length == 0, encodeString x.Description⟩,
   ⟨"versions", true, x.Versions.len == 0, encodeSlice APIVersion.encode x.Versions⟩]

/-- The record of a `ThirdPartyResource`. -/
def ThirdPartyResource.encode {E : External} (x : ThirdPartyResource E) : Json :=
  .obj (marshalFields x.fields)

/-- Decoding into a `ThirdPartyResource`. -/
def ThirdPartyResource.decode (E : External) : Json → Option (ThirdPartyResource E)
  | .obj kvs =>
    (TypeMeta.decodeFrom kvs).bind fun t =>
    (decodeField E.objectMeta.decode E.objectMeta.zero kvs "metadata").bind fun m =>
    (decodeField decodeString [] kvs "description").bind fun d =>
    (decodeField (decodeSlice APIVersion.decode) none kvs "versions").bind fun vs =>
    some ⟨t, m, d, vs⟩
  | .null => some (ThirdPartyResource.zero E)
  | _ => none

/-- The zero value of `ThirdPartyResourceList`. -/
def ThirdPartyResourceList.zero (E : External) : ThirdPartyResourceList E :=
  ⟨TypeMeta.zero, E.listMeta.zero, none⟩

/-- The fields of `ThirdPartyResourceList`. -/
def ThirdPartyResourceList.fields {E : External} (x : ThirdPartyResourceList E) :
    List Field :=
  x.TypeMeta.fields ++
  [⟨"metadata", true, false, E.listMeta.encode x.ListMeta⟩,
   ⟨"items", false, x.Items.len == 0, encodeSlice ThirdPartyResource.encode x.Items⟩]

/-- The record of a `ThirdPartyResourceList`. -/
def ThirdPartyResourceList.encode {E : External} (x : ThirdPartyResourceList E) : Json :=
  .obj (marshalFields x.fields)

/-- Decoding into a `ThirdPartyResourceList`. -/
def ThirdPartyResourceList.decode (E : External) : Json → Option (ThirdPartyResourceList E)
  | .obj kvs =>
    (TypeMeta.decodeFrom kvs).bind fun t =>
    (decodeField E.listMeta.decode E.listMeta.zero kvs "metadata").bind fun m =>
    (decodeField (decodeSlice (ThirdPartyResource.decode E)) none kvs "items").bind
      fun items =>
    some ⟨t, m, items⟩
  | .null => some (ThirdPartyResourceList.zero E)
  | _ => none

/-- The zero value of `ThirdPartyResourceData`. -/
def ThirdPartyResourceData.zero (E : External) : ThirdPartyResourceData E :=
  ⟨TypeMeta.zero, E.objectMeta.zero, none⟩

/-- The fields of `ThirdPartyResourceData`.  The payload `Data` is written
under the key of its tag, which is `name`. -/
def ThirdPartyResourceData.fields {E : External} (x : ThirdPartyResourceData E) :
    List Field :=
  x.TypeMeta.fields ++
  [⟨"metadata", true, false, E.objectMeta.encode x.ObjectMeta⟩,
   ⟨"name", true, x.Data.len == 0, encodeBytes x.Data⟩]

/-- The record of a `ThirdPartyResourceData`. -/
def ThirdPartyResourceData.encode {E : External} (x : ThirdPartyResourceData E) : Json :=
  .obj (marshalFields x.fields)

/-- Decoding into a `ThirdPartyResourceData`. -/
def ThirdPartyResourceData.decode (E : External) : Json → Option (ThirdPartyResourceData E)
  | .obj kvs =>
    (TypeMeta.decodeFrom kvs).bind fun t =>
    (decodeField E.objectMeta.decode E.objectMeta.zero kvs "metadata").bind fun m =>
    (decodeField decodeBytes none kvs "name").bind fun d =>
    some ⟨t, m, d⟩
  | .null => some (ThirdPartyResourceData.zero E)
  | _ => none

/-! ## Well-formed instances -/

/-- A type identity whose two strings are UTF-8 text. -/
def TypeMeta.Valid (t : TypeMeta) : Prop := t.Kind.ValidUTF8 ∧ t.APIVersion.ValidUTF8

/-- A `ScaleSpec` whose count is a Go `int`. -/
def ScaleSpec.Valid (x : ScaleSpec) : Prop := intInRange x.Replicas

/-- A `ScaleStatus` whose count is a Go `int` and whose selector is a map of
UTF-8 text. -/
def ScaleStatus.Valid (x : ScaleStatus) : Prop :=
  intInRange x.Replicas ∧ x.Selector.WellFormed ∧ x.Selector.ValidUTF8

/-- The selector is the nil map whenever it has no entries. -/
def ScaleStatus.NilWhenEmpty (x : ScaleStatus) : Prop := x.Selector ≠ some []

/-- A `Scale` with well-formed parts. -/
def Scale.Valid {E : External} (x : Scale E) : Prop :=
  x.TypeMeta.Valid ∧ E.objectMeta.RoundTrips x.ObjectMeta ∧ x.Spec.Valid ∧ x.Status.Valid

/-- The selector of the status is nil whenever it has no entries. -/
def Scale.NilWhenEmpty {E : External} (x : Scale E) : Prop := x.Status.NilWhenEmpty

/-- A `ReplicationControllerDummy` with a well-formed type identity. -/
def ReplicationControllerDummy.Valid (x : ReplicationControllerDummy) : Prop :=
  x.TypeMeta.Valid

/-- A `SubresourceReference` whose five strings are UTF-8 text. -/
def SubresourceReference.Valid (x : SubresourceReference) : Prop :=
  x.Kind.ValidUTF8 ∧ x.Namespace.ValidUTF8 ∧ x.Name.ValidUTF8 ∧ x.APIVersion.ValidUTF8 ∧
    x.Subresource.ValidUTF8

/-- A `ResourceConsumption` whose resource name is UTF-8 text and whose
quantity its own codec reads back. -/
def ResourceConsumption.Valid {E : External} (x : ResourceConsumption E) : Prop :=
  x.Resource.ValidUTF8 ∧ E.quantity.RoundTrips x.Quantity

/-- A `HorizontalPodAutoscalerSpec` with a well-formed reference when one is
present, Go `int` counts and a well-formed target.  No relation between the
two counts is part of being a value of the type. -/
def HorizontalPodAutoscalerSpec.Valid {E : External} (x : HorizontalPodAutoscalerSpec E) :
    Prop :=
  (∀ r, x.ScaleRef = some r → r.Valid) ∧ intInRange x.MinCount ∧ intInRange x.MaxCount ∧
    x.Target.Valid

/-- A `HorizontalPodAutoscalerStatus` with Go `int` counts, a well-formed
consumption and, when the timestamp is present, one that its codec reads back
and does not write as `null`. -/
def HorizontalPodAutoscalerStatus.Valid {E : External} (x : HorizontalPodAutoscalerStatus E) :
    Prop :=
  intInRange x.CurrentReplicas ∧ intInRange x.DesiredReplicas ∧ x.CurrentConsumption.Valid ∧
    ∀ t, x.LastScaleTimestamp = some t → E.time.RoundTrips t ∧ E.time.encode t ≠ Json.null

/-- A `HorizontalPodAutoscaler` with well-formed parts. -/
def HorizontalPodAutoscaler.Valid {E : External} (x : HorizontalPodAutoscaler E) : Prop :=
  x.TypeMeta.Valid ∧ E.objectMeta.RoundTrips x.ObjectMeta ∧ x.Spec.Valid ∧ x.Status.Valid

/-- A `HorizontalPodAutoscalerList` with well-formed type identity, metadata
and items. -/
def HorizontalPodAutoscalerList.Valid {E : External} (x : HorizontalPodAutoscalerList E) :
    Prop :=
  x.TypeMeta.Valid ∧ E.listMeta.RoundTrips x.ListMeta ∧ ∀ h ∈ x.Items.elems, h.Valid

/-- An `APIVersion` whose two strings are UTF-8 text. -/
def APIVersion.Valid (x : APIVersion) : Prop := x.Name.ValidUTF8 ∧ x.APIGroup.ValidUTF8

/-- A `ThirdPartyResource` with well-formed type identity, metadata,
description and versions.  Nothing about the number or the names of its
versions is part of being a value of the type. -/
def ThirdPartyResource.Valid {E : External} (x : ThirdPartyResource E) : Prop :=
  x.TypeMeta.Valid ∧ E.objectMeta.RoundTrips x.ObjectMeta ∧ x.Description.ValidUTF8 ∧
    ∀ v ∈ x.Versions.elems, v.Valid

/-- The version slice is nil whenever it has no entries. -/
def ThirdPartyResource.NilWhenEmpty {E : External} (x : ThirdPartyResource E) : Prop :=
  x.Versions ≠ some []

/-- A `ThirdPartyResourceList` with well-formed type identity, metadata and
items. -/
def ThirdPartyResourceList.Valid {E : External} (x : ThirdPartyResourceList E) : Prop :=
  x.TypeMeta.Valid ∧ E.listMeta.RoundTrips x.ListMeta ∧ ∀ r ∈ x.Items.elems, r.Valid

/-- Every item has a nil version slice whenever it has no versions. -/
def ThirdPartyResourceList.NilWhenEmpty {E : External} (x : ThirdPartyResourceList E) : Prop :=
  ∀ r ∈ x.Items.elems, r.NilWhenEmpty

/-- A `ThirdPartyResourceData` with well-formed type identity and metadata;
any payload. -/
def ThirdPartyResourceData.Valid {E : External} (x : ThirdPartyResourceData E) : Prop :=
  x.TypeMeta.Valid ∧ E.objectMeta.RoundTrips x.ObjectMeta

/-- The payload is the nil slice whenever it has length 0. -/
def ThirdPartyResourceData.NilWhenEmpty {E : External} (x : ThirdPartyResourceData E) : Prop :=
  x.Data ≠ some []

/-! ## Record keys -/

/-- The keys of a record, in the order written; empty for a value that is not
an object. -/
def Json.recordKeys : Json → List String
  | .obj kvs => Json.keys kvs
  | _ => []

/-- The keys a list of fields can write: the names in the tags. -/
def tagKeys (fs : List Field) : List String := fs.map Field.key

/-- The record `j` carries the fields `fs` as their tags say: a field is
absent exactly when its tag has `omitempty` and its value is empty, and is
otherwise present with its encoded value. -/
def FollowsTags (fs : List Field) (j : Json) : Prop :=
  ∀ f ∈ fs, j.member f.key = if f.omitempty && f.empty then none else some f.value

/-! ## Validation, defaulting and registration -/

/-- The error conditions callers must be able to tell apart. -/
inductive ErrorKind where
  | InvalidSpec
  | NotFound
  | Unsupported
  | PayloadMismatch
deriving DecidableEq, Repr

/-- Modelled from the spec: the write-time validation of an autoscaler
specification is not part of `types.go` (the source at hand declares the
struct only).  The spec asks a conforming implementation to enforce
`MinCount >= 0`, `MaxCount >= MinCount` and that the target quantity is a
non-negative amount in a unit compatible with the target resource, and to
report a violation as `InvalidSpec`.  The check of the quantity belongs to the
external quantity library and is the parameter `targetOk`. -/
def validateHorizontalPodAutoscalerSpec {E : External}
    (targetOk : ResourceConsumption E → Bool) (s : HorizontalPodAutoscalerSpec E) :
    Except ErrorKind Unit :=
  if s.MinCount < 0 then .error .InvalidSpec
  else if s.MaxCount < s.MinCount then .error .InvalidSpec
  else if targetOk s.Target then .ok ()
  else .error .InvalidSpec

/-- The names of the versions of a third-party resource, in order. -/
def ThirdPartyResource.versionNames {E : External} (r : ThirdPartyResource E) :
    List GoString :=
  r.Versions.elems.map APIVersion.Name

/-- Modelled from the spec: the validation of a third-party resource at
registration is not part of `types.go`.  The spec fixes its contract:
`Versions` is non-empty and each `APIVersion.Name` is unique within the list;
a violation is `InvalidSpec`. -/
def validateThirdPartyResource {E : External} (r : ThirdPartyResource E) :
    Except ErrorKind Unit :=
  if r.Versions.len = 0 then .error .InvalidSpec
  else if r.versionNames.Nodup then .ok ()
  else .error .InvalidSpec

/-- The default API group named in the description tag of
`APIVersion.APIGroup`. -/
def defaultAPIGroup : GoString := goString "experimental"

/-- Modelled from the spec: the resolution of an `APIVersion` at the consuming
boundary is not part of `types.go`.  An empty `APIGroup` means the default
experimental group; any other group is kept. -/
def APIVersion.resolve (v : APIVersion) : APIVersion :=
  if v.APIGroup = [] then { v with APIGroup := defaultAPIGroup } else v

/-- A registered third-party resource together with the data objects stored
for it, each under the name of the version it was written with. -/
structure Registration (E : External) where
  resource : ThirdPartyResource E
  stored : List (GoString × ThirdPartyResourceData E)

/-- Modelled from the spec: adding a version to a registered resource is done
by the registration code, which is not part of `types.go`.  It is the Go
statement `r.Versions = append(r.Versions, v)`; nothing else is written. -/
def Registration.addVersion {E : External} (s : Registration E) (v : APIVersion) :
    Registration E :=
  { s with resource := { s.resource with Versions := some (s.resource.Versions.elems ++ [v]) } }

/-- A version is supported by a registration when it is among the versions of
the resource (otherwise a request for it is `Unsupported`). -/
def Registration.supports {E : External} (s : Registration E) (name : GoString) : Prop :=
  name ∈ s.resource.versionNames

/-! ## A concrete choice of the external types, for examples -/

/-- Reading a text back from a JSON string. -/
def decodeText : Json → Option String
  | .str s => some s
  | .null => some ""
  | _ => none

/-- A codec for an external type carried as text and written as a JSON
string. -/
def textCodec : Codec String := ⟨"", Json.str, decodeText⟩

/-- External types carried as text: metadata by name, a quantity by its
canonical text form, a time by its timestamp text. -/
def textExternal : External :=
  ⟨String, String, String, String, textCodec, textCodec, textCodec, textCodec⟩

/-! ## Lemmas on the value kinds -/

theorem decodeInt_encode (n : Int) (h : intInRange n) : decodeInt (encodeInt n) = some n := by
  simp [decodeInt, encodeInt, h]

theorem char_toNat_valid (c : Char) :
    c.toNat < 55296 ∨ (57343 < c.toNat ∧ c.toNat < 1114112) := by
  have h := c.valid
  simp only [UInt32.isValidChar, Nat.isValidChar] at h
  exact h

theorem utf8TextFrom_encodeRune (c : Char) (rest : GoString) :
    utf8TextFrom 0 (utf8EncodeRune c ++ rest) = c :: utf8TextFrom 0 rest := by
  have hv := char_toNat_valid c
  have hc := Char.ofNat_toNat c
  simp only [utf8EncodeRune]
  generalize c.toNat = r at hv hc ⊢
  by_cases h1 : r < 128
  · have e : r % 256 = r := by omega
    simp [h1, utf8TextFrom, decodeRune, byteOf, e, hc]
  · by_cases h2 : r < 2048
    · have f1 : ¬ (192 + r / 64) % 256 < 128 := by omega
      have f2 : ¬ (192 + r / 64) % 256 < 194 := by omega
      have f3 : (192 + r / 64) % 256 < 224 := by omega
      have f4 : 128 ≤ (128 + r % 64) % 256 ∧ (128 + r % 64) % 256 ≤ 191 := by omega
      have f5 : (192 + r / 64) % 256 % 32 * 64 + (128 + r % 64) % 256 % 64 = r := by omega
      simp [h1, h2, utf8TextFrom, decodeRune, byteOf, isContinuation, f1, f2, f3, f4, f5, hc]
    · by_cases h3 : r < 65536
      · have f1 : ¬ (224 + r / 4096) % 256 < 128 := by omega
        have f2 : ¬ (224 + r / 4096) % 256 < 194 := by omega
        have f3 : ¬ (224 + r / 4096) % 256 < 224 := by omega
        have f4 : (224 + r / 4096) % 256 < 240 := by omega
        have f5 : acceptLo ((224 + r / 4096) % 256) ≤ (128 + r / 64 % 64) % 256 := by
          unfold acceptLo
          split
          · omega
          · split <;> omega
        have f6 : (128 + r / 64 % 64) % 256 ≤ acceptHi ((224 + r / 4096) % 256) := by
          unfold acceptHi
          split
          · omega
          · split <;> omega
        have f7 : 128 ≤ (128 + r % 64) % 256 ∧ (128 + r % 64) % 256 ≤ 191 := by omega
        have f8 : (224 + r / 4096) % 256 % 16 * 4096 + (128 + r / 64 % 64) % 256 % 64 * 64
            + (128 + r % 64) % 256 % 64 = r := by omega
        simp [h1, h2, h3, utf8TextFrom, decodeRune, byteOf, isContinuation, f1, f2, f3, f4, f5,
          f6, f7, f8, hc]
      · have f1 : ¬ (240 + r / 262144) % 256 < 128 := by omega
        have f2 : ¬ (240 + r / 262144) % 256 < 194 := by omega
        have f3 : ¬ (240 + r / 262144) % 256 < 224 := by omega
        have f4 : ¬ (240 + r / 262144) % 256 < 240 := by omega
        have g4 : (240 + r / 262144) % 256 < 245 := by omega
        have f5 : acceptLo ((240 + r / 262144) % 256) ≤ (128 + r / 4096 % 64) % 256 := by
          unfold acceptLo
          split
          · omega
          · split <;> omega
        have f6 : (128 + r / 4096 % 64) % 256 ≤ acceptHi ((240 + r / 262144) % 256) := by
          unfold acceptHi
          split
          · omega
          · split <;> omega
        have f7 : 128 ≤ (128 + r / 64 % 64) % 256 ∧ (128 + r / 64 % 64) % 256 ≤ 191 := by
          omega
        have g7 : 128 ≤ (128 + r % 64) % 256 ∧ (128 + r % 64) % 256 ≤ 191 := by omega
        have f8 : (240 + r / 262144) % 256 % 8 * 262144 + (128 + r / 4096 % 64) % 256 % 64 * 4096
            + (128 + r / 64 % 64) % 256 % 64 * 64 + (128 + r % 64) % 256 % 64 = r := by omega
        simp [h1, h2, h3, utf8TextFrom, decodeRune, byteOf, isContinuation, f1, f2, f3, f4, g4,
          f5, f6, f7, g7, f8, hc]

theorem utf8Text_utf8Bytes (cs : List Char) : utf8Text (utf8Bytes cs) = cs := by
  unfold utf8Text
  induction cs with
  | nil => rfl
  | cons c rest ih => rw [utf8Bytes, utf8TextFrom_encodeRune, ih]

theorem utf8Bytes_utf8Text (s : GoString) (h : s.ValidUTF8) : utf8Bytes (utf8Text s) = s := by
  obtain ⟨cs, rfl⟩ := h
  rw [utf8Text_utf8Bytes]

theorem goString_valid (s : String) : (goString s).ValidUTF8 := ⟨s.toList, rfl⟩

theorem nil_valid : GoString.ValidUTF8 [] := ⟨[], rfl⟩

theorem encodeString_goString (s : String) : encodeString (goString s) = Json.str s := by
  simp [encodeString, goString, utf8Text_utf8Bytes]

theorem decodeString_encodeString (s : GoString) :
    decodeString (encodeString s) = some (utf8Bytes (utf8Text s)) := rfl

theorem decodeString_encode (s : GoString) (h : s.ValidUTF8) :
    decodeString (encodeString s) = some s := by
  rw [decodeString_encodeString, utf8Bytes_utf8Text s h]

/-- A byte that is no UTF-8 text is written as U+FFFD and read back as the
three bytes of U+FFFD. -/
theorem decodeString_encode_invalid_byte :
    decodeString (encodeString [255]) = some [239, 191, 189] := by decide

theorem decodePtr_encode {α : Type} (enc : α → Json) (dec : Json → Option α) (p : Ptr α)
    (h : ∀ a, p = some a → dec (enc a) = some a ∧ enc a ≠ Json.null) :
    decodePtr dec (encodePtr enc p) = some p := by
  cases p with
  | none => rfl
  | some a =>
    obtain ⟨h1, h2⟩ := h a rfl
    simp only [encodePtr]
    cases he : enc a with
    | null => exact absurd he h2
    | _ => simp [decodePtr, ← he, h1]

theorem decodeElems_encode {α : Type} (enc : α → Json) (dec : Json → Option α) (xs : List α)
    (h : ∀ a ∈ xs, dec (enc a) = some a) : decodeElems dec (xs.map enc) = some xs := by
  induction xs with
  | nil => rfl
  | cons a rest ih =>
    simp [decodeElems, h a (List.mem_cons_self _ _),
      ih (fun b hb => h b (List.mem_cons_of_mem _ hb))]

theorem decodeSlice_encode {α : Type} (enc : α → Json) (dec : Json → Option α) (s : Slice α)
    (h : ∀ a ∈ s.elems, dec (enc a) = some a) :
    decodeSlice dec (encodeSlice enc s) = some s := by
  cases s with
  | none => rfl
  | some xs =>
    simp only [encodeSlice, decodeSlice]
    rw [decodeElems_encode enc dec xs h]
    rfl

theorem mapAssign_append (k v : GoString) (acc : List (GoString × GoString))
    (h : ∀ p ∈ acc, p.1 < k) : mapAssign k v acc = acc ++ [(k, v)] := by
  induction acc with
  | nil => rfl
  | cons p rest ih =>
    obtain ⟨k', v'⟩ := p
    have hk : k' < k := h (k', v') (List.mem_cons_self _ _)
    have h1 : ¬ k < k' := lt_asymm hk
    have h2 : ¬ k = k' := fun e => lt_irrefl k (e ▸ hk)
    simp only [mapAssign, h1, h2, if_false, List.cons_append]
    rw [ih (fun p hp => h p (List.mem_cons_of_mem _ hp))]

theorem decodeMapEntries_encode (l acc : List (GoString × GoString))
    (hl : (l.map Prod.fst).Pairwise (· < ·))
    (hu : ∀ e ∈ l, e.1.ValidUTF8 ∧ e.2.ValidUTF8)
    (hacc : ∀ p ∈ acc, ∀ q ∈ l, p.1 < q.1) :
    decodeMapEntries (l.map fun e => (String.mk (utf8Text e.1), encodeString e.2)) acc
      = some (acc ++ l) := by
  induction l generalizing acc with
  | nil => simp [decodeMapEntries]
  | cons e rest ih =>
    obtain ⟨k, v⟩ := e
    obtain ⟨hk, hv⟩ := hu (k, v) (List.mem_cons_self _ _)
    simp only [List.map_cons, List.pairwise_cons] at hl
    simp only [List.map_cons, decodeMapEntries, decodeString_encode v hv]
    have hkk : utf8Bytes (String.mk (utf8Text k)).toList = k := utf8Bytes_utf8Text k hk
    rw [hkk, mapAssign_append k v acc (fun p hp => hacc p hp (k, v) (List.mem_cons_self _ _))]
    rw [ih (acc ++ [(k, v)]) hl.2 (fun e he => hu e (List.mem_cons_of_mem _ he))]
    · simp
    · intro p hp q hq
      rcases List.mem_append.1 hp with hp | hp
      · exact hacc p hp q (List.mem_cons_of_mem _ hq)
      · have : p = (k, v) := by simpa using hp
        subst this
        exact hl.1 q.1 (List.mem_map_of_mem Prod.fst hq)

theorem decodeStringMap_encode (m : StringMap) (h : m.WellFormed) (hu : m.ValidUTF8) :
    decodeStringMap (encodeStringMap m) = some m := by
  cases m with
  | none => rfl
  | some l =>
    simp only [encodeStringMap, decodeStringMap]
    rw [decodeMapEntries_encode l [] h hu (by simp)]
    simp

theorem slice_len_eq_zero_iff {α : Type} (s : Slice α) (h : s ≠ some []) :
    Slice.len s = 0 ↔ s = none := by
  cases s with
  | none => simp [Slice.len]
  | some l =>
    cases l with
    | nil => exact absurd rfl h
    | cons a r => simp [Slice.len]

set_option maxRecDepth 100000 in
theorem base64Value_char_fin :
    ∀ n : Fin 64, base64Value (base64Char n.val) = some n.val ∧ base64Char n.val ≠ '=' := by
  decide

theorem base64Value_char (n : Nat) (h : n < 64) : base64Value (base64Char n) = some n :=
  (base64Value_char_fin ⟨n, h⟩).1

theorem base64Char_ne_pad (n : Nat) (h : n < 64) : base64Char n ≠ '=' :=
  (base64Value_char_fin ⟨n, h⟩).2

theorem base64Decode_encode (bs : List Byte) : base64Decode (base64Encode bs) = some bs := by
  induction bs using base64Encode.induct with
  | case1 => rfl
  | case2 a =>
    have ha := a.isLt
    simp only [base64Encode, base64Decode]
    rw [base64Value_char _ (Nat.mod_lt _ (by decide)), base64Value_char _ (Nat.mod_lt _ (by decide))]
    simp only [and_self, if_true]
    congr 2
    apply Fin.ext
    simp only [byteOf]
    omega
  | case3 a b =>
    have ha := a.isLt
    have hb := b.isLt
    simp only [base64Encode, base64Decode]
    rw [base64Value_char _ (Nat.mod_lt _ (by decide)), base64Value_char _ (Nat.mod_lt _ (by decide))]
    simp only [base64Char_ne_pad _ (Nat.mod_lt _ (by decide : 0 < 64)), if_false, if_true]
    rw [base64Value_char _ (Nat.mod_lt _ (by decide))]
    simp only [if_true]
    congr 2
    · apply Fin.ext
      simp only [byteOf]
      omega
    · congr 1
      apply Fin.ext
      simp only [byteOf]
      omega
  | case4 a b c rest ih =>
    have ha := a.isLt
    have hb := b.isLt
    have hc := c.isLt
    simp only [base64Encode, base64Decode]
    rw [base64Value_char _ (Nat.mod_lt _ (by decide)), base64Value_char _ (Nat.mod_lt _ (by decide))]
    simp only [base64Char_ne_pad _ (Nat.mod_lt _ (by decide : 0 < 64)), if_false]
    rw [base64Value_char _ (Nat.mod_lt _ (by decide))]
    simp only []
    rw [base64Value_char _ (Nat.mod_lt _ (by decide)), ih]
    simp only []
    congr 2
    · apply Fin.ext
      simp only [byteOf]
      omega
    · congr 1
      · apply Fin.ext
        simp only [byteOf]
        omega
      · congr 1
        apply Fin.ext
        simp only [byteOf]
        omega

theorem decodeBytes_encode (s : Slice Byte) : decodeBytes (encodeBytes s) = some s := by
  cases s with
  | none => rfl
  | some bs => simp [encodeBytes, decodeBytes, base64Decode_encode]

/-! ## Reading a record back, struct by struct -/

theorem ScaleSpec_decode_encode (x : ScaleSpec) (h : x.Valid) :
    ScaleSpec.decode (ScaleSpec.encode x) = some x := by
  obtain ⟨r⟩ := x
  have hr := decodeInt_encode r h
  by_cases h0 : r = 0
  · subst h0
    simp [ScaleSpec.decode, ScaleSpec.encode, ScaleSpec.fields, marshalFields, Field.omitted,
      decodeField, Json.lookup]
  · simp [ScaleSpec.decode, ScaleSpec.encode, ScaleSpec.fields, marshalFields, Field.omitted,
      decodeField, Json.lookup, h0, hr]

theorem ScaleStatus_decode_encode (x : ScaleStatus) (h : x.Valid) (hn : x.NilWhenEmpty) :
    ScaleStatus.decode (ScaleStatus.encode x) = some x := by
  obtain ⟨r, sel⟩ := x
  have hr := decodeInt_encode r h.1
  have hs := decodeStringMap_encode sel h.2.1 h.2.2
  have hz : StringMap.len sel = 0 ↔ sel = none := slice_len_eq_zero_iff sel hn
  by_cases h0 : sel = none
  · subst h0
    simp [ScaleStatus.decode, ScaleStatus.encode, ScaleStatus.fields, marshalFields,
      Field.omitted, decodeField, Json.lookup, hr, StringMap.len]
  · have hz2 : ¬ StringMap.len sel = 0 := fun e => h0 (hz.1 e)
    simp [ScaleStatus.decode, ScaleStatus.encode, ScaleStatus.fields, marshalFields,
      Field.omitted, decodeField, Json.lookup, hr, hs, hz2]

theorem Scale_decode_encode {E : External} (x : Scale E) (h : x.Valid) (hn : x.NilWhenEmpty) :
    Scale.decode E (Scale.encode x) = some x := by
  obtain ⟨⟨k, v⟩, m, sp, st⟩ := x
  obtain ⟨⟨tk, tv⟩, hm, hsp, hst⟩ := h
  have e1 := decodeString_encode k tk
  have e2 := decodeString_encode v tv
  have h1 := ScaleSpec_decode_encode sp hsp
  have h2 := ScaleStatus_decode_encode st hst hn
  simp only [Codec.RoundTrips] at hm
  by_cases hk : k = [] <;> by_cases hv : v = [] <;>
    simp [Scale.decode, Scale.encode, Scale.fields, TypeMeta.fields, TypeMeta.decodeFrom,
      marshalFields, Field.omitted, decodeField, Json.lookup, e1, e2, hk, hv, hm, h1, h2]

theorem ReplicationControllerDummy_decode_encode (x : ReplicationControllerDummy)
    (h : x.Valid) :
    ReplicationControllerDummy.decode (ReplicationControllerDummy.encode x) = some x := by
  obtain ⟨⟨k, v⟩⟩ := x
  obtain ⟨tk, tv⟩ := h
  have e1 := decodeString_encode k tk
  have e2 := decodeString_encode v tv
  by_cases hk : k = [] <;> by_cases hv : v = [] <;>
    simp [ReplicationControllerDummy.decode, ReplicationControllerDummy.encode,
      ReplicationControllerDummy.fields, TypeMeta.fields, TypeMeta.decodeFrom,
      marshalFields, Field.omitted, decodeField, Json.lookup, e1, e2, hk, hv]

theorem SubresourceReference_decode_encode (x : SubresourceReference) (h : x.Valid) :
    SubresourceReference.decode (SubresourceReference.encode x) = some x := by
  obtain ⟨a, b, c, d, e⟩ := x
  obtain ⟨va, vb, vc, vd, ve⟩ := h
  have e1 := decodeString_encode a va
  have e2 := decodeString_encode b vb
  have e3 := decodeString_encode c vc
  have e4 := decodeString_encode d vd
  have e5 := decodeString_encode e ve
  by_cases ha : a = [] <;> by_cases hb : b = [] <;> by_cases hc : c = [] <;>
    by_cases hd : d = [] <;> by_cases he : e = [] <;>
    simp [SubresourceReference.decode, SubresourceReference.encode,
      SubresourceReference.fields, marshalFields, Field.omitted, decodeField, Json.lookup,
      e1, e2, e3, e4, e5, ha, hb, hc, hd, he]

theorem ResourceConsumption_decode_encode {E : External} (x : ResourceConsumption E)
    (h : x.Valid) : ResourceConsumption.decode E (ResourceConsumption.encode x) = some x := by
  obtain ⟨r, q⟩ := x
  obtain ⟨vr, hq⟩ := h
  have e1 := decodeString_encode r vr
  simp only [Codec.RoundTrips] at hq
  by_cases hr : r = [] <;>
    simp [ResourceConsumption.decode, ResourceConsumption.encode, ResourceConsumption.fields,
      marshalFields, Field.omitted, decodeField, Json.lookup, e1, hr, hq]

theorem SubresourceReference.encode_ne_null (x : SubresourceReference) :
    SubresourceReference.encode x ≠ Json.null := by
  simp [SubresourceReference.encode]

theorem HorizontalPodAutoscalerSpec_decode_encode {E : External}
    (x : HorizontalPodAutoscalerSpec E) (h : x.Valid) :
    HorizontalPodAutoscalerSpec.decode E (HorizontalPodAutoscalerSpec.encode x) = some x := by
  obtain ⟨r, lo, hi, t⟩ := x
  obtain ⟨hr, hlo, hhi, ht⟩ := h
  have h1 := decodeInt_encode lo hlo
  have h2 := decodeInt_encode hi hhi
  have h3 := ResourceConsumption_decode_encode t ht
  have h4 := decodePtr_encode SubresourceReference.encode SubresourceReference.decode r
    (fun a ha =>
      ⟨SubresourceReference_decode_encode a (hr a ha), SubresourceReference.encode_ne_null a⟩)
  simp [HorizontalPodAutoscalerSpec.decode, HorizontalPodAutoscalerSpec.encode,
    HorizontalPodAutoscalerSpec.fields, marshalFields, Field.omitted, decodeField,
    Json.lookup, h1, h2, h3, h4]

theorem HorizontalPodAutoscalerStatus_decode_encode {E : External}
    (x : HorizontalPodAutoscalerStatus E) (h : x.Valid) :
    HorizontalPodAutoscalerStatus.decode E (HorizontalPodAutoscalerStatus.encode x) = some x := by
  obtain ⟨c, d, cc, ts⟩ := x
  obtain ⟨hc, hd, hcc, hts⟩ := h
  have h1 := decodeInt_encode c hc
  have h2 := decodeInt_encode d hd
  have h3 := ResourceConsumption_decode_encode cc hcc
  have h4 := decodePtr_encode E.time.encode E.time.decode ts hts
  cases ts with
  | none =>
    simp [HorizontalPodAutoscalerStatus.decode, HorizontalPodAutoscalerStatus.encode,
      HorizontalPodAutoscalerStatus.fields, marshalFields, Field.omitted, decodeField,
      Json.lookup, h1, h2, h3]
  | some t =>
    simp [HorizontalPodAutoscalerStatus.decode, HorizontalPodAutoscalerStatus.encode,
      HorizontalPodAutoscalerStatus.fields, marshalFields, Field.omitted, decodeField,
      Json.lookup, h1, h2, h3, h4]

theorem HorizontalPodAutoscaler_decode_encode {E : External} (x : HorizontalPodAutoscaler E)
    (h : x.Valid) :
    HorizontalPodAutoscaler.decode E (HorizontalPodAutoscaler.encode x) = some x := by
  obtain ⟨⟨k, v⟩, m, sp, st⟩ := x
  obtain ⟨⟨tk, tv⟩, hm, hsp, hst⟩ := h
  have e1 := decodeString_encode k tk
  have e2 := decodeString_encode v tv
  have h1 := HorizontalPodAutoscalerSpec_decode_encode sp hsp
  have h2 := HorizontalPodAutoscalerStatus_decode_encode st hst
  simp only [Codec.RoundTrips] at hm
  by_cases hk : k = [] <;> by_cases hv : v = [] <;>
    simp [HorizontalPodAutoscaler.decode, HorizontalPodAutoscaler.encode,
      HorizontalPodAutoscaler.fields, TypeMeta.fields, TypeMeta.decodeFrom,
      marshalFields, Field.omitted, decodeField, Json.lookup, e1, e2, hk, hv, hm, h1, h2]

theorem HorizontalPodAutoscalerList_decode_encode {E : External}
    (x : HorizontalPodAutoscalerList E) (h : x.Valid) :
    HorizontalPodAutoscalerList.decode E (HorizontalPodAutoscalerList.encode x) = some x := by
  obtain ⟨⟨k, v⟩, m, items⟩ := x
  obtain ⟨⟨tk, tv⟩, hm, hitems⟩ := h
  have e1 := decodeString_encode k tk
  have e2 := decodeString_encode v tv
  have h1 := decodeSlice_encode HorizontalPodAutoscaler.encode (HorizontalPodAutoscaler.decode E)
    items (fun a ha => HorizontalPodAutoscaler_decode_encode a (hitems a ha))
  simp only [Codec.RoundTrips] at hm
  by_cases hk : k = [] <;> by_cases hv : v = [] <;>
    simp [HorizontalPodAutoscalerList.decode, HorizontalPodAutoscalerList.encode,
      HorizontalPodAutoscalerList.fields, TypeMeta.fields, TypeMeta.decodeFrom,
      marshalFields, Field.omitted, decodeField, Json.lookup, e1, e2, hk, hv, hm, h1]

theorem APIVersion_decode_encode (x : APIVersion) (h : x.Valid) :
    APIVersion.decode (APIVersion.encode x) = some x := by
  obtain ⟨n, g⟩ := x
  obtain ⟨vn, vg⟩ := h
  have e1 := decodeString_encode n vn
  have e2 := decodeString_encode g vg
  by_cases hn : n = [] <;> by_cases hg : g = [] <;>
    simp [APIVersion.decode, APIVersion.encode, APIVersion.fields, marshalFields,
      Field.omitted, decodeField, Json.lookup, e1, e2, hn, hg]

theorem ThirdPartyResource_decode_encode {E : External} (x : ThirdPartyResource E)
    (h : x.Valid) (hn : x.NilWhenEmpty) :
    ThirdPartyResource.decode E (ThirdPartyResource.encode x) = some x := by
  obtain ⟨⟨k, v⟩, m, d, vs⟩ := x
  obtain ⟨⟨tk, tv⟩, hm, vd, hvs⟩ := h
  have e1 := decodeString_encode k tk
  have e2 := decodeString_encode v tv
  have e3 := decodeString_encode d vd
  have h1 := decodeSlice_encode APIVersion.encode APIVersion.decode vs
    (fun a ha => APIVersion_decode_encode a (hvs a ha))
  have hz : Slice.len vs = 0 ↔ vs = none := slice_len_eq_zero_iff vs hn
  simp only [Codec.RoundTrips] at hm
  by_cases h0 : vs = none
  · subst h0
    by_cases hk : k = [] <;> by_cases hv : v = [] <;> by_cases hd : d = [] <;>
      simp [ThirdPartyResource.decode, ThirdPartyResource.encode, ThirdPartyResource.fields,
        TypeMeta.fields, TypeMeta.decodeFrom, marshalFields, Field.omitted, decodeField,
        Json.lookup, e1, e2, e3, hk, hv, hd, hm, Slice.len]
  · have hz2 : ¬ Slice.len vs = 0 := fun e => h0 (hz.1 e)
    by_cases hk : k = [] <;> by_cases hv : v = [] <;> by_cases hd : d = [] <;>
      simp [ThirdPartyResource.decode, ThirdPartyResource.encode, ThirdPartyResource.fields,
        TypeMeta.fields, TypeMeta.decodeFrom, marshalFields, Field.omitted, decodeField,
        Json.lookup, e1, e2, e3, hk, hv, hd, hm, h1, hz2]

theorem ThirdPartyResourceList_decode_encode {E : External} (x : ThirdPartyResourceList E)
    (h : x.Valid) (hn : x.NilWhenEmpty) :
    ThirdPartyResourceList.decode E (ThirdPartyResourceList.encode x) = some x := by
  obtain ⟨⟨k, v⟩, m, items⟩ := x
  obtain ⟨⟨tk, tv⟩, hm, hitems⟩ := h
  have e1 := decodeString_encode k tk
  have e2 := decodeString_encode v tv
  have h1 := decodeSlice_encode ThirdPartyResource.encode (ThirdPartyResource.decode E)
    items (fun a ha => ThirdPartyResource_decode_encode a (hitems a ha) (hn a ha))
  simp only [Codec.RoundTrips] at hm
  by_cases hk : k = [] <;> by_cases hv : v = [] <;>
    simp [ThirdPartyResourceList.decode, ThirdPartyResourceList.encode,
      ThirdPartyResourceList.fields, TypeMeta.fields, TypeMeta.decodeFrom,
      marshalFields, Field.omitted, decodeField, Json.lookup, e1, e2, hk, hv, hm, h1]

theorem ThirdPartyResourceData_decode_encode {E : External} (x : ThirdPartyResourceData E)
    (h : x.Valid) (hn : x.NilWhenEmpty) :
    ThirdPartyResourceData.decode E (ThirdPartyResourceData.encode x) = some x := by
  obtain ⟨⟨k, v⟩, m, d⟩ := x
  obtain ⟨⟨tk, tv⟩, hm⟩ := h
  have e1 := decodeString_encode k tk
  have e2 := decodeString_encode v tv
  have h1 := decodeBytes_encode d
  have hz : Slice.len d = 0 ↔ d = none := slice_len_eq_zero_iff d hn
  simp only [Codec.RoundTrips] at hm
  by_cases h0 : d = none
  · subst h0
    by_cases hk : k = [] <;> by_cases hv : v = [] <;>
      simp [ThirdPartyResourceData.decode, ThirdPartyResourceData.encode,
        ThirdPartyResourceData.fields, TypeMeta.fields, TypeMeta.decodeFrom, marshalFields,
        Field.omitted, decodeField, Json.lookup, e1, e2, hk, hv, hm, Slice.len]
  · have hz2 : ¬ Slice.len d = 0 := fun e => h0 (hz.1 e)
    by_cases hk : k = [] <;> by_cases hv : v = [] <;>
      simp [ThirdPartyResourceData.decode, ThirdPartyResourceData.encode,
        ThirdPartyResourceData.fields, TypeMeta.fields, TypeMeta.decodeFrom, marshalFields,
        Field.omitted, decodeField, Json.lookup, e1, e2, hk, hv, hm, h1, hz2]

/-- The payload of a data object is read back whatever its type identity
holds: the strings of the type identity do not touch the payload. -/
theorem ThirdPartyResourceData_decode_encode_data {E : External}
    (x : ThirdPartyResourceData E) (hm : E.objectMeta.RoundTrips x.ObjectMeta) :
    (ThirdPartyResourceData.decode E (ThirdPartyResourceData.encode x)).map
      (fun d => d.Data.elems) = some x.Data.elems := by
  obtain ⟨⟨k, v⟩, m, d⟩ := x
  have e1 := decodeString_encodeString k
  have e2 := decodeString_encodeString v
  have h1 := decodeBytes_encode d
  simp only [Codec.RoundTrips] at hm
  by_cases h0 : Slice.len d = 0
  · have hd : Option.getD d [] = [] := by
      cases d with
      | none => rfl
      | some l =>
        cases l with
        | nil => rfl
        | cons a r => simp [Slice.len] at h0
    by_cases hk : k = [] <;> by_cases hv : v = [] <;>
      simp [ThirdPartyResourceData.decode, ThirdPartyResourceData.encode,
        ThirdPartyResourceData.fields, TypeMeta.fields, TypeMeta.decodeFrom, marshalFields,
        Field.omitted, decodeField, Json.lookup, e1, e2, hk, hv, hm, h0, hd, Slice.elems]
  · by_cases hk : k = [] <;> by_cases hv : v = [] <;>
      simp [ThirdPartyResourceData.decode, ThirdPartyResourceData.encode,
        ThirdPartyResourceData.fields, TypeMeta.fields, TypeMeta.decodeFrom, marshalFields,
        Field.omitted, decodeField, Json.lookup, e1, e2, hk, hv, hm, h1, h0]

/-! ## Which keys a record carries -/

theorem keys_marshalFields_subset (fs : List Field) (k : String)
    (h : k ∈ Json.keys (marshalFields fs)) : k ∈ tagKeys fs := by
  induction fs with
  | nil => simp [marshalFields, Json.keys] at h
  | cons f rest ih =>
    cases ho : f.omitted with
    | true =>
      simp only [marshalFields, ho, if_true] at h
      exact List.mem_cons_of_mem _ (ih h)
    | false =>
      simp only [marshalFields, ho, Bool.false_eq_true, if_false, Json.keys, List.map_cons,
        List.mem_cons] at h
      rcases h with h | h
      · simp [tagKeys, h]
      · exact List.mem_cons_of_mem _ (ih h)

theorem keys_marshalFields_nodup (fs : List Field) (h : (tagKeys fs).Nodup) :
    (Json.keys (marshalFields fs)).Nodup := by
  induction fs with
  | nil => simp [marshalFields, Json.keys]
  | cons f rest ih =>
    simp only [tagKeys, List.map_cons, List.nodup_cons] at h
    cases ho : f.omitted with
    | true =>
      simp only [marshalFields, ho, if_true]
      exact ih h.2
    | false =>
      simp only [marshalFields, ho, Bool.false_eq_true, if_false, Json.keys, List.map_cons,
        List.nodup_cons]
      exact ⟨fun hk => h.1 (keys_marshalFields_subset rest f.key hk), ih h.2⟩

theorem lookup_eq_none (k : String) (kvs : List (String × Json)) (h : k ∉ Json.keys kvs) :
    Json.lookup k kvs = none := by
  induction kvs with
  | nil => rfl
  | cons p rest ih =>
    obtain ⟨k', v⟩ := p
    simp only [Json.keys, List.map_cons, List.mem_cons, not_or] at h
    have hne : ¬ k' = k := fun e => h.1 e.symm
    simp only [Json.lookup, ih h.2, hne, if_false]

theorem lookup_marshalFields (fs : List Field) (h : (tagKeys fs).Nodup) (f : Field)
    (hf : f ∈ fs) :
    Json.lookup f.key (marshalFields fs) = if f.omitted then none else some f.value := by
  induction fs with
  | nil => simp at hf
  | cons g rest ih =>
    simp only [tagKeys, List.map_cons, List.nodup_cons] at h
    have hg : Json.lookup g.key (marshalFields rest) = none :=
      lookup_eq_none _ _ (fun hk => h.1 (keys_marshalFields_subset rest g.key hk))
    rcases List.mem_cons.1 hf with hfg | hfr
    · subst hfg
      cases ho : f.omitted with
      | true => simp only [marshalFields, ho, if_true, hg]
      | false => simp [marshalFields, ho, Json.lookup, hg]
    · have hne : ¬ g.key = f.key := fun e => h.1 (e ▸ List.mem_map_of_mem Field.key hfr)
      have hrec := ih h.2 hfr
      cases ho : g.omitted with
      | true => simp only [marshalFields, ho, if_true, hrec]
      | false =>
        simp only [marshalFields, ho, Bool.false_eq_true, if_false, Json.lookup, hne, hrec]
        cases f.omitted <;> simp

theorem member_marshalFields (fs : List Field) (h : (tagKeys fs).Nodup) (f : Field)
    (hf : f ∈ fs) :
    (Json.obj (marshalFields fs)).member f.key
      = if f.omitempty && f.empty then none else some f.value :=
  lookup_marshalFields fs h f hf

theorem ScaleSpec_tagKeys_eq (x : ScaleSpec) : tagKeys x.fields = ["replicas"] := rfl

theorem ScaleStatus_tagKeys_eq (x : ScaleStatus) :
    tagKeys x.fields = ["replicas", "selector"] := rfl

theorem Scale_tagKeys_eq {E : External} (x : Scale E) :
    tagKeys x.fields = ["kind", "apiVersion", "metadata", "spec", "status"] := rfl

theorem ReplicationControllerDummy_tagKeys_eq (x : ReplicationControllerDummy) :
    tagKeys x.fields = ["kind", "apiVersion"] := rfl

theorem SubresourceReference_tagKeys_eq (x : SubresourceReference) :
    tagKeys x.fields = ["kind", "namespace", "name", "apiVersion", "subresource"] := rfl

theorem ResourceConsumption_tagKeys_eq {E : External} (x : ResourceConsumption E) :
    tagKeys x.fields = ["resource", "quantity"] := rfl

theorem HorizontalPodAutoscalerSpec_tagKeys_eq {E : External}
    (x : HorizontalPodAutoscalerSpec E) :
    tagKeys x.fields = ["scaleRef", "minCount", "maxCount", "target"] := rfl

theorem HorizontalPodAutoscalerStatus_tagKeys_eq {E : External}
    (x : HorizontalPodAutoscalerStatus E) :
    tagKeys x.fields
      = ["currentReplicas", "desiredReplicas", "currentConsumption", "lastScaleTimestamp"] :=
  rfl

theorem HorizontalPodAutoscaler_tagKeys_eq {E : External} (x : HorizontalPodAutoscaler E) :
    tagKeys x.fields = ["kind", "apiVersion", "metadata", "spec", "status"] := rfl

theorem HorizontalPodAutoscalerList_tagKeys_eq {E : External}
    (x : HorizontalPodAutoscalerList E) :
    tagKeys x.fields = ["kind", "apiVersion", "metadata", "items"] := rfl

theorem APIVersion_tagKeys_eq (x : APIVersion) : tagKeys x.fields = ["name", "apiGroup"] := rfl

theorem ThirdPartyResource_tagKeys_eq {E : External} (x : ThirdPartyResource E) :
    tagKeys x.fields = ["kind", "apiVersion", "metadata", "description", "versions"] := rfl

theorem ThirdPartyResourceList_tagKeys_eq {E : External} (x : ThirdPartyResourceList E) :
    tagKeys x.fields = ["kind", "apiVersion", "metadata", "items"] := rfl

theorem ThirdPartyResourceData_tagKeys_eq {E : External} (x : ThirdPartyResourceData E) :
    tagKeys x.fields = ["kind", "apiVersion", "metadata", "name"] := rfl

/-! ## Round trip (C1) -/

/-- C1, counterexample: a well-formed `ScaleStatus` whose selector is an
allocated map with no entries is written without the `selector` key and read
back with the nil map, which is not the value that was written. -/
theorem ScaleStatus.allocated_empty_selector_reads_back_nil :
    ScaleStatus.Valid ⟨0, some []⟩ ∧
    ScaleStatus.encode ⟨0, some []⟩ = Json.obj [("replicas", Json.num 0)] ∧
    ScaleStatus.decode (ScaleStatus.encode ⟨0, some []⟩) = some ⟨0, none⟩ ∧
    ScaleStatus.decode (ScaleStatus.encode ⟨0, some []⟩) ≠ some ⟨0, some []⟩ := by
  refine ⟨⟨by decide, ?_, ?_⟩, rfl, rfl, by decide⟩
  · simp [StringMap.WellFormed]
  · simp [StringMap.ValidUTF8]

/-- C1, amended: for every struct of `types.go`, decoding the record written
for a well-formed instance gives back exactly that instance, provided every
map or slice field tagged `omitempty` (`Selector`, `Versions`, `Data`) is nil
whenever it has no entries.  Well-formed means: every Go string of the
instance (kind, names, description, selector keys and values) is the UTF-8
form of a text, counts are in the range of a Go `int`, the selector is a map,
and values of the external types are read back by their own codecs.  Absent
optional fields are covered: a nil selector, a nil payload, a nil timestamp,
empty strings and zero counts. -/
theorem decode_encode_of_nilWhenEmpty (E : External) :
    (∀ x : ScaleSpec, x.Valid → ScaleSpec.decode x.encode = some x) ∧
    (∀ x : ScaleStatus, x.Valid → x.NilWhenEmpty → ScaleStatus.decode x.encode = some x) ∧
    (∀ x : Scale E, x.Valid → x.NilWhenEmpty → Scale.decode E x.encode = some x) ∧
    (∀ x : ReplicationControllerDummy, x.Valid →
      ReplicationControllerDummy.decode x.encode = some x) ∧
    (∀ x : SubresourceReference, x.Valid → SubresourceReference.decode x.encode = some x) ∧
    (∀ x : ResourceConsumption E, x.Valid → ResourceConsumption.decode E x.encode = some x) ∧
    (∀ x : HorizontalPodAutoscalerSpec E, x.Valid →
      HorizontalPodAutoscalerSpec.decode E x.encode = some x) ∧
    (∀ x : HorizontalPodAutoscalerStatus E, x.Valid →
      HorizontalPodAutoscalerStatus.decode E x.encode = some x) ∧
    (∀ x : HorizontalPodAutoscaler E, x.Valid →
      HorizontalPodAutoscaler.decode E x.encode = some x) ∧
    (∀ x : HorizontalPodAutoscalerList E, x.Valid →
      HorizontalPodAutoscalerList.decode E x.encode = some x) ∧
    (∀ x : APIVersion, x.Valid → APIVersion.decode x.encode = some x) ∧
    (∀ x : ThirdPartyResource E, x.Valid → x.NilWhenEmpty →
      ThirdPartyResource.decode E x.encode = some x) ∧
    (∀ x : ThirdPartyResourceList E, x.Valid → x.NilWhenEmpty →
      ThirdPartyResourceList.decode E x.encode = some x) ∧
    (∀ x : ThirdPartyResourceData E, x.Valid → x.NilWhenEmpty →
      ThirdPartyResourceData.decode E x.encode = some x) :=
  ⟨ScaleSpec_decode_encode, ScaleStatus_decode_encode, Scale_decode_encode,
   ReplicationControllerDummy_decode_encode, SubresourceReference_decode_encode,
   ResourceConsumption_decode_encode, HorizontalPodAutoscalerSpec_decode_encode,
   HorizontalPodAutoscalerStatus_decode_encode, HorizontalPodAutoscaler_decode_encode,
   HorizontalPodAutoscalerList_decode_encode, APIVersion_decode_encode,
   ThirdPartyResource_decode_encode, ThirdPartyResourceList_decode_encode,
   ThirdPartyResourceData_decode_encode⟩

/-- C1, witness: the amended round trip at a status with a nil selector, a
status with one selector entry, a reference to the scale of a replication
controller, an autoscaler status without timestamp and a data object without
payload and with a payload. -/
theorem decode_encode_of_nilWhenEmpty_witness :
    ScaleStatus.decode (ScaleStatus.encode ⟨3, none⟩) = some ⟨3, none⟩ ∧
    ScaleStatus.decode (ScaleStatus.encode ⟨3, some [(goString "app", goString "web")]⟩)
      = some ⟨3, some [(goString "app", goString "web")]⟩ ∧
    SubresourceReference.decode (SubresourceReference.encode
        ⟨goString "ReplicationController", goString "default", goString "web", [],
          goString "scale"⟩)
      = some ⟨goString "ReplicationController", goString "default", goString "web", [],
          goString "scale"⟩ ∧
    HorizontalPodAutoscalerStatus.decode textExternal
      (HorizontalPodAutoscalerStatus.encode
        (⟨4, 6, ⟨goString "cpu", "500m"⟩, none⟩ : HorizontalPodAutoscalerStatus textExternal))
      = some ⟨4, 6, ⟨goString "cpu", "500m"⟩, none⟩ ∧
    ThirdPartyResourceData.decode textExternal
      (ThirdPartyResourceData.encode
        (⟨⟨goString "Foo", goString "v1"⟩, "obj", none⟩ : ThirdPartyResourceData textExternal))
      = some ⟨⟨goString "Foo", goString "v1"⟩, "obj", none⟩ ∧
    ThirdPartyResourceData.decode textExternal
      (ThirdPartyResourceData.encode
        (⟨⟨goString "Foo", goString "v1"⟩, "obj", some [123, 125]⟩ :
          ThirdPartyResourceData textExternal))
      = some ⟨⟨goString "Foo", goString "v1"⟩, "obj", some [123, 125]⟩ := by
  have h := decode_encode_of_nilWhenEmpty textExternal
  refine ⟨h.2.1 ⟨3, none⟩ ⟨by decide, ?_, ?_⟩ (by simp [ScaleStatus.NilWhenEmpty]),
    h.2.1 ⟨3, some [(goString "app", goString "web")]⟩ ⟨by decide, ?_, ?_⟩
      (by simp [ScaleStatus.NilWhenEmpty]),
    h.2.2.2.2.1 _ ⟨goString_valid _, goString_valid _, goString_valid _, nil_valid,
      goString_valid _⟩,
    h.2.2.2.2.2.2.2.1 ⟨4, 6, ⟨goString "cpu", "500m"⟩, none⟩
      ⟨by decide, by decide, ⟨goString_valid _, rfl⟩, ?_⟩,
    h.2.2.2.2.2.2.2.2.2.2.2.2.2 ⟨⟨goString "Foo", goString "v1"⟩, "obj", none⟩
      ⟨⟨goString_valid _, goString_valid _⟩, rfl⟩ ?_,
    h.2.2.2.2.2.2.2.2.2.2.2.2.2 ⟨⟨goString "Foo", goString "v1"⟩, "obj", some [123, 125]⟩
      ⟨⟨goString_valid _, goString_valid _⟩, rfl⟩ ?_⟩
  · simp [StringMap.WellFormed]
  · simp [StringMap.ValidUTF8]
  · simp [StringMap.WellFormed]
  · intro e he
    have : e = (goString "app", goString "web") := by simpa using he
    subst this
    exact ⟨goString_valid _, goString_valid _⟩
  · intro t h
    cases h
  · simp [ThirdPartyResourceData.NilWhenEmpty]
  · simp [ThirdPartyResourceData.NilWhenEmpty]

/-! ## Opaque payload (C2) -/

/-- C2: for every byte sequence `B` and every envelope (type identity `t`,
metadata `m`), the data object built with payload `B` holds exactly `B`, and
the payload read from the decoded record of that object is exactly `B` again,
whatever the bytes are. -/
theorem payload_read_back (E : External) (t : TypeMeta)
    (m : E.ObjectMeta) (B : List Byte) :
    (⟨t, m, some B⟩ : ThirdPartyResourceData E).Data.elems = B ∧
    (E.objectMeta.RoundTrips m →
      (ThirdPartyResourceData.decode E
        (ThirdPartyResourceData.encode (⟨t, m, some B⟩ : ThirdPartyResourceData E))).map
          (fun d => d.Data.elems) = some B) :=
  ⟨rfl, fun hm => ThirdPartyResourceData_decode_encode_data ⟨t, m, some B⟩ hm⟩

/-- C2, witness: the two-byte payload 123, 125 (an empty JSON object, no
instance of any declared schema) is read back unchanged. -/
theorem payload_read_back_witness :
    textExternal.objectMeta.RoundTrips "obj" ∧
    (ThirdPartyResourceData.decode textExternal
      (ThirdPartyResourceData.encode
        (⟨⟨goString "Foo", goString "v1"⟩, "obj", some [123, 125]⟩ :
          ThirdPartyResourceData textExternal))).map
          (fun d => d.Data.elems) = some [123, 125] :=
  ⟨rfl, (payload_read_back textExternal ⟨goString "Foo", goString "v1"⟩ "obj"
    [123, 125]).2 rfl⟩

/-! ## Bounds of an autoscaler (C3) -/

/-- C3, counterexample: a `HorizontalPodAutoscalerSpec` whose `MaxCount` (3) is
smaller than its `MinCount` (5) is a well-formed value of the type, and its
record is written and read back like that of any other value. -/
theorem HorizontalPodAutoscalerSpec.exists_max_below_min :
    (⟨none, 5, 3, ⟨goString "cpu", "500m"⟩⟩ :
      HorizontalPodAutoscalerSpec textExternal).Valid ∧
    (⟨none, 5, 3, ⟨goString "cpu", "500m"⟩⟩ :
      HorizontalPodAutoscalerSpec textExternal).MaxCount
      < (⟨none, 5, 3, ⟨goString "cpu", "500m"⟩⟩ :
        HorizontalPodAutoscalerSpec textExternal).MinCount ∧
    HorizontalPodAutoscalerSpec.decode textExternal
      (HorizontalPodAutoscalerSpec.encode
        (⟨none, 5, 3, ⟨goString "cpu", "500m"⟩⟩ : HorizontalPodAutoscalerSpec textExternal))
      = some ⟨none, 5, 3, ⟨goString "cpu", "500m"⟩⟩ := by
  have hv : (⟨none, 5, 3, ⟨goString "cpu", "500m"⟩⟩ :
      HorizontalPodAutoscalerSpec textExternal).Valid :=
    ⟨fun _ h => (by cases h), by decide, by decide, ⟨goString_valid _, rfl⟩⟩
  exact ⟨hv, by decide, HorizontalPodAutoscalerSpec_decode_encode _ hv⟩

/-- C3, amended: the type itself admits any two counts; it is the write-time
validation that rejects a specification with `MinCount > MaxCount`, as
`InvalidSpec`, so that every specification it accepts has
`0 <= MinCount <= MaxCount`. -/
theorem validateHorizontalPodAutoscalerSpec_bounds (E : External)
    (targetOk : ResourceConsumption E → Bool) (s : HorizontalPodAutoscalerSpec E) :
    (s.MinCount > s.MaxCount →
      validateHorizontalPodAutoscalerSpec targetOk s = .error .InvalidSpec) ∧
    (validateHorizontalPodAutoscalerSpec targetOk s = .ok () →
      0 ≤ s.MinCount ∧ s.MinCount ≤ s.MaxCount) := by
  unfold validateHorizontalPodAutoscalerSpec
  constructor
  · intro h
    have h' : s.MaxCount < s.MinCount := h
    by_cases h0 : s.MinCount < 0 <;> simp [h0, h']
  · intro h
    by_cases h0 : s.MinCount < 0
    · simp [h0] at h
    · by_cases h1 : s.MaxCount < s.MinCount
      · simp [h0, h1] at h
      · omega

/-- C3, witness: bounds 5 and 3 are rejected as `InvalidSpec`; bounds 2 and 10
are accepted. -/
theorem validateHorizontalPodAutoscalerSpec_bounds_witness :
    validateHorizontalPodAutoscalerSpec (fun _ => true)
      (⟨none, 5, 3, ⟨goString "cpu", "500m"⟩⟩ : HorizontalPodAutoscalerSpec textExternal)
      = .error .InvalidSpec ∧
    validateHorizontalPodAutoscalerSpec (fun _ => true)
      (⟨some ⟨goString "ReplicationController", goString "default", goString "web", [],
          goString "scale"⟩, 2, 10, ⟨goString "cpu", "500m"⟩⟩ :
        HorizontalPodAutoscalerSpec textExternal) = .ok () ∧
    (0 ≤ (⟨some ⟨goString "ReplicationController", goString "default", goString "web", [],
          goString "scale"⟩, 2, 10, ⟨goString "cpu", "500m"⟩⟩ :
        HorizontalPodAutoscalerSpec textExternal).MinCount ∧
     (⟨some ⟨goString "ReplicationController", goString "default", goString "web", [],
          goString "scale"⟩, 2, 10, ⟨goString "cpu", "500m"⟩⟩ :
        HorizontalPodAutoscalerSpec textExternal).MinCount
      ≤ (⟨some ⟨goString "ReplicationController", goString "default", goString "web", [],
          goString "scale"⟩, 2, 10, ⟨goString "cpu", "500m"⟩⟩ :
        HorizontalPodAutoscalerSpec textExternal).MaxCount) :=
  ⟨(validateHorizontalPodAutoscalerSpec_bounds textExternal (fun _ => true)
      ⟨none, 5, 3, ⟨goString "cpu", "500m"⟩⟩).1 (by decide),
   rfl,
   (validateHorizontalPodAutoscalerSpec_bounds textExternal (fun _ => true)
      ⟨some ⟨goString "ReplicationController", goString "default", goString "web", [],
        goString "scale"⟩, 2, 10, ⟨goString "cpu", "500m"⟩⟩).2 rfl⟩

/-! ## Versions of a third-party resource (C4) -/

/-- C4, counterexample: a `ThirdPartyResource` with no versions (the zero
value) and one with two versions of the same name are well-formed values of
the type, and their records are written and read back like those of any other
value. -/
theorem ThirdPartyResource.exists_without_versions_and_with_duplicates :
    (ThirdPartyResource.zero textExternal).Versions.len = 0 ∧
    ThirdPartyResource.decode textExternal
      (ThirdPartyResource.encode (ThirdPartyResource.zero textExternal))
      = some (ThirdPartyResource.zero textExternal) ∧
    (⟨⟨[], []⟩, "foo", [], some [⟨goString "v1", []⟩, ⟨goString "v1", []⟩]⟩ :
      ThirdPartyResource textExternal).versionNames = [goString "v1", goString "v1"] ∧
    ThirdPartyResource.decode textExternal
      (ThirdPartyResource.encode
        (⟨⟨[], []⟩, "foo", [], some [⟨goString "v1", []⟩, ⟨goString "v1", []⟩]⟩ :
          ThirdPartyResource textExternal))
      = some ⟨⟨[], []⟩, "foo", [], some [⟨goString "v1", []⟩, ⟨goString "v1", []⟩]⟩ := by
  refine ⟨rfl, ThirdPartyResource_decode_encode _ ⟨⟨nil_valid, nil_valid⟩, rfl, nil_valid, ?_⟩
      (by simp [ThirdPartyResource.NilWhenEmpty, ThirdPartyResource.zero]),
    rfl, ThirdPartyResource_decode_encode _ ⟨⟨nil_valid, nil_valid⟩, rfl, nil_valid, ?_⟩
      (by simp [ThirdPartyResource.NilWhenEmpty])⟩
  · intro v hv
    simp [ThirdPartyResource.zero, Slice.elems] at hv
  · intro v hv
    have : v = ⟨goString "v1", []⟩ := by simpa [Slice.elems] using hv
    subst this
    exact ⟨goString_valid _, nil_valid⟩

/-- C4, amended: the type itself admits any version slice; it is the
validation at registration that rejects a resource with zero versions, or with
two versions of the same name, as `InvalidSpec`, so that every resource it
accepts has one or more versions with pairwise distinct names. -/
theorem validateThirdPartyResource_versions (E : External) (r : ThirdPartyResource E) :
    (r.Versions.len = 0 → validateThirdPartyResource r = .error .InvalidSpec) ∧
    (¬ r.versionNames.Nodup → validateThirdPartyResource r = .error .InvalidSpec) ∧
    (validateThirdPartyResource r = .ok () → 1 ≤ r.Versions.len ∧ r.versionNames.Nodup) := by
  unfold validateThirdPartyResource
  refine ⟨fun h => by simp [h], fun h => by by_cases h0 : r.Versions.len = 0 <;> simp [h0, h],
    fun h => ?_⟩
  by_cases h0 : r.Versions.len = 0
  · simp [h0] at h
  · by_cases h1 : r.versionNames.Nodup
    · exact ⟨by omega, h1⟩
    · simp [h0, h1] at h

/-- C4, witness: no versions and versions `v1`, `v1` are rejected as
`InvalidSpec`; versions `v1`, `v2` are accepted. -/
theorem validateThirdPartyResource_versions_witness :
    validateThirdPartyResource (ThirdPartyResource.zero textExternal) = .error .InvalidSpec ∧
    validateThirdPartyResource
      (⟨⟨[], []⟩, "foo", [], some [⟨goString "v1", []⟩, ⟨goString "v1", []⟩]⟩ :
        ThirdPartyResource textExternal) = .error .InvalidSpec ∧
    (1 ≤ (⟨⟨[], []⟩, "foo", [], some [⟨goString "v1", []⟩, ⟨goString "v2", []⟩]⟩ :
      ThirdPartyResource textExternal).Versions.len ∧
     (⟨⟨[], []⟩, "foo", [], some [⟨goString "v1", []⟩, ⟨goString "v2", []⟩]⟩ :
      ThirdPartyResource textExternal).versionNames.Nodup) :=
  ⟨(validateThirdPartyResource_versions textExternal (ThirdPartyResource.zero textExternal)).1
     rfl,
   (validateThirdPartyResource_versions textExternal
     ⟨⟨[], []⟩, "foo", [], some [⟨goString "v1", []⟩, ⟨goString "v1", []⟩]⟩).2.1 (by decide),
   (validateThirdPartyResource_versions textExternal
     ⟨⟨[], []⟩, "foo", [], some [⟨goString "v1", []⟩, ⟨goString "v2", []⟩]⟩).2.2 rfl⟩

/-! ## Which fields a record carries (C5) -/

/-- C5, counterexample: the zero `Scale` has the zero `ScaleSpec` as its
`Spec`, whose tag is `spec,omitempty`, and yet its record carries the key
`spec` (with an empty object): `omitempty` does not drop a field of struct
type. -/
theorem Scale.zero_spec_is_written :
    (Scale.zero textExternal).Spec = ScaleSpec.zero ∧
    ScaleSpec.zero.Replicas = 0 ∧
    Scale.encode (Scale.zero textExternal)
      = Json.obj [("metadata", Json.str ""), ("spec", Json.obj []),
          ("status", Json.obj [("replicas", Json.num 0)])] ∧
    (Scale.encode (Scale.zero textExternal)).member "spec" = some (Json.obj []) :=
  ⟨rfl, rfl, rfl, rfl⟩

/-- C5, amended: in the record of every struct, a field tagged `omitempty`
whose Go type is an int, a string, a map, a slice or a pointer is absent
exactly when its value is empty (0, the empty string, length 0, nil); a field
without `omitempty` is always present; and a field of struct type (`metadata`,
`spec`, `status`, `quantity`) is always present, with or without `omitempty`.
For every `Scale`: `spec`, `status` and `metadata` are present, `spec.replicas`
is absent iff `Spec.Replicas = 0`, `status.selector` is absent iff the selector
has no entries, `status.replicas` is present.  For every
`HorizontalPodAutoscalerStatus`: `lastScaleTimestamp` is absent iff the
timestamp is nil, the other three keys are present. -/
theorem records_follow_tags (E : External) :
    ((∀ x : ScaleSpec, FollowsTags x.fields x.encode) ∧
     (∀ x : ScaleStatus, FollowsTags x.fields x.encode) ∧
     (∀ x : Scale E, FollowsTags x.fields x.encode) ∧
     (∀ x : ReplicationControllerDummy, FollowsTags x.fields x.encode) ∧
     (∀ x : SubresourceReference, FollowsTags x.fields x.encode) ∧
     (∀ x : ResourceConsumption E, FollowsTags x.fields x.encode) ∧
     (∀ x : HorizontalPodAutoscalerSpec E, FollowsTags x.fields x.encode) ∧
     (∀ x : HorizontalPodAutoscalerStatus E, FollowsTags x.fields x.encode) ∧
     (∀ x : HorizontalPodAutoscaler E, FollowsTags x.fields x.encode) ∧
     (∀ x : HorizontalPodAutoscalerList E, FollowsTags x.fields x.encode) ∧
     (∀ x : APIVersion, FollowsTags x.fields x.encode) ∧
     (∀ x : ThirdPartyResource E, FollowsTags x.fields x.encode) ∧
     (∀ x : ThirdPartyResourceList E, FollowsTags x.fields x.encode) ∧
     (∀ x : ThirdPartyResourceData E, FollowsTags x.fields x.encode)) ∧
    (∀ x : Scale E,
      x.encode.member "metadata" = some (E.objectMeta.encode x.ObjectMeta) ∧
      x.encode.member "spec" = some x.Spec.encode ∧
      x.encode.member "status" = some x.Status.encode ∧
      ((x.encode.member "spec").bind (Json.member "replicas") = none ↔ x.Spec.Replicas = 0) ∧
      ((x.encode.member "status").bind (Json.member "selector") = none
        ↔ x.Status.Selector.len = 0) ∧
      (x.encode.member "status").bind (Json.member "replicas")
        = some (Json.num x.Status.Replicas)) ∧
    (∀ x : HorizontalPodAutoscalerStatus E,
      (x.encode.member "lastScaleTimestamp" = none ↔ x.LastScaleTimestamp = none) ∧
      x.encode.member "currentReplicas" = some (Json.num x.CurrentReplicas) ∧
      x.encode.member "desiredReplicas" = some (Json.num x.DesiredReplicas) ∧
      x.encode.member "currentConsumption" = some x.CurrentConsumption.encode) ∧
    (∀ x : ResourceConsumption E,
      x.encode.member "quantity" = some (E.quantity.encode x.Quantity) ∧
      (x.encode.member "resource" = none ↔ x.Resource = [])) := by
  have hSpec : ∀ x : ScaleSpec, FollowsTags x.fields x.encode := fun x f hf =>
    member_marshalFields x.fields (by rw [ScaleSpec_tagKeys_eq]; decide) f hf
  have hStatus : ∀ x : ScaleStatus, FollowsTags x.fields x.encode := fun x f hf =>
    member_marshalFields x.fields (by rw [ScaleStatus_tagKeys_eq]; decide) f hf
  have hScale : ∀ x : Scale E, FollowsTags x.fields x.encode := fun x f hf =>
    member_marshalFields x.fields (by rw [Scale_tagKeys_eq]; decide) f hf
  have hHS : ∀ x : HorizontalPodAutoscalerStatus E, FollowsTags x.fields x.encode :=
    fun x f hf =>
      member_marshalFields x.fields (by rw [HorizontalPodAutoscalerStatus_tagKeys_eq]; decide)
        f hf
  have hRC : ∀ x : ResourceConsumption E, FollowsTags x.fields x.encode := fun x f hf =>
    member_marshalFields x.fields (by rw [ResourceConsumption_tagKeys_eq]; decide) f hf
  refine ⟨⟨hSpec, hStatus, hScale, ?_, ?_, hRC, ?_, hHS, ?_, ?_, ?_, ?_, ?_, ?_⟩, ?_, ?_, ?_⟩
  · exact fun x f hf => member_marshalFields x.fields
      (by rw [ReplicationControllerDummy_tagKeys_eq]; decide) f hf
  · exact fun x f hf => member_marshalFields x.fields
      (by rw [SubresourceReference_tagKeys_eq]; decide) f hf
  · exact fun x f hf => member_marshalFields x.fields
      (by rw [HorizontalPodAutoscalerSpec_tagKeys_eq]; decide) f hf
  · exact fun x f hf => member_marshalFields x.fields
      (by rw [HorizontalPodAutoscaler_tagKeys_eq]; decide) f hf
  · exact fun x f hf => member_marshalFields x.fields
      (by rw [HorizontalPodAutoscalerList_tagKeys_eq]; decide) f hf
  · exact fun x f hf => member_marshalFields x.fields
      (by rw [APIVersion_tagKeys_eq]; decide) f hf
  · exact fun x f hf => member_marshalFields x.fields
      (by rw [ThirdPartyResource_tagKeys_eq]; decide) f hf
  · exact fun x f hf => member_marshalFields x.fields
      (by rw [ThirdPartyResourceList_tagKeys_eq]; decide) f hf
  · exact fun x f hf => member_marshalFields x.fields
      (by rw [ThirdPartyResourceData_tagKeys_eq]; decide) f hf
  · intro x
    have h1 := hScale x ⟨"metadata", true, false, E.objectMeta.encode x.ObjectMeta⟩
      (by simp [Scale.fields])
    have h2 := hScale x ⟨"spec", true, false, x.Spec.encode⟩ (by simp [Scale.fields])
    have h3 := hScale x ⟨"status", true, false, x.Status.encode⟩ (by simp [Scale.fields])
    have h4 := hSpec x.Spec ⟨"replicas", true, x.Spec.Replicas == 0, encodeInt x.Spec.Replicas⟩
      (by simp [ScaleSpec.fields])
    have h5 := hStatus x.Status
      ⟨"selector", true, x.Status.Selector.len == 0, encodeStringMap x.Status.Selector⟩
      (by simp [ScaleStatus.fields])
    have h6 := hStatus x.Status
      ⟨"replicas", false, x.Status.Replicas == 0, encodeInt x.Status.Replicas⟩
      (by simp [ScaleStatus.fields])
    simp only [Bool.and_false, Bool.false_eq_true, if_false, Bool.true_and, Bool.false_and,
      beq_iff_eq] at h1 h2 h3 h4 h5 h6
    refine ⟨h1, h2, h3, ?_, ?_, ?_⟩
    · rw [h2, Option.some_bind, h4]
      by_cases h0 : x.Spec.Replicas = 0 <;> simp [h0]
    · rw [h3, Option.some_bind, h5]
      by_cases h0 : x.Status.Selector.len = 0 <;> simp [h0]
    · rw [h3, Option.some_bind, h6]
      rfl
  · intro x
    have h1 := hHS x ⟨"lastScaleTimestamp", true, x.LastScaleTimestamp.isNone,
      encodePtr E.time.encode x.LastScaleTimestamp⟩ (by simp [HorizontalPodAutoscalerStatus.fields])
    have h2 := hHS x ⟨"currentReplicas", false, x.CurrentReplicas == 0,
      encodeInt x.CurrentReplicas⟩ (by simp [HorizontalPodAutoscalerStatus.fields])
    have h3 := hHS x ⟨"desiredReplicas", false, x.DesiredReplicas == 0,
      encodeInt x.DesiredReplicas⟩ (by simp [HorizontalPodAutoscalerStatus.fields])
    have h4 := hHS x ⟨"currentConsumption", false, false, x.CurrentConsumption.encode⟩
      (by simp [HorizontalPodAutoscalerStatus.fields])
    simp only [Bool.and_false, Bool.false_eq_true, if_false, Bool.true_and, Bool.false_and,
      beq_iff_eq] at h1 h2 h3 h4
    refine ⟨?_, h2, h3, h4⟩
    rw [h1]
    cases x.LastScaleTimestamp <;> simp
  · intro x
    have h1 := hRC x ⟨"quantity", true, false, E.quantity.encode x.Quantity⟩
      (by simp [ResourceConsumption.fields])
    have h2 := hRC x ⟨"resource", true, x.Resource.length == 0, encodeString x.Resource⟩
      (by simp [ResourceConsumption.fields])
    simp only [Bool.and_false, Bool.false_eq_true, if_false, Bool.true_and, beq_iff_eq] at h1 h2
    refine ⟨h1, ?_⟩
    rw [h2]
    by_cases h0 : x.Resource = [] <;> simp [h0]

/-- C5, witness: in the record of a status with two replicas and selector
`app=web`, the `selector` field is a field of the struct and is present with
its encoded value. -/
theorem records_follow_tags_witness :
    (Json.member "selector"
      (ScaleStatus.encode ⟨2, some [(goString "app", goString "web")]⟩))
      = some (encodeStringMap (some [(goString "app", goString "web")])) :=
  (records_follow_tags textExternal).1.2.1 ⟨2, some [(goString "app", goString "web")]⟩
    ⟨"selector", true, false, encodeStringMap (some [(goString "app", goString "web")])⟩
    (List.mem_cons_of_mem _ (List.mem_cons_self _ _))

/-! ## Default API group (C6) -/

/-- C6: for every name `n`, the version with name `n` and empty group resolves
to the same version as the one with name `n` and group `experimental`, namely
to the latter. -/
theorem APIVersion.resolve_empty_group (n : GoString) :
    APIVersion.resolve ⟨n, []⟩ = APIVersion.resolve ⟨n, goString "experimental"⟩ ∧
    APIVersion.resolve ⟨n, []⟩ = ⟨n, goString "experimental"⟩ ∧
    APIVersion.resolve ⟨goString "v1", goString ""⟩
      = APIVersion.resolve ⟨goString "v1", goString "experimental"⟩ := by
  have hne : goString "experimental" ≠ [] := by decide
  have hemp : goString "" = [] := rfl
  refine ⟨?_, ?_, ?_⟩ <;> simp [APIVersion.resolve, defaultAPIGroup, hne, hemp]

/-! ## The key of the payload (C7) -/

/-- C7, the code at the failing input: the record of a data object whose
payload is the two bytes 123, 125 has no member `data`; the payload (base64
`e30=`) is written under the key `name`. -/
theorem payload_is_written_under_name :
    (ThirdPartyResourceData.encode
      (⟨⟨goString "Foo", goString "v1"⟩, "obj", some [123, 125]⟩ :
        ThirdPartyResourceData textExternal))
      = Json.obj [("kind", Json.str "Foo"), ("apiVersion", Json.str "v1"),
          ("metadata", Json.str "obj"), ("name", Json.str "e30=")] ∧
    (ThirdPartyResourceData.encode
      (⟨⟨goString "Foo", goString "v1"⟩, "obj", some [123, 125]⟩ :
        ThirdPartyResourceData textExternal)).member "data" = none ∧
    (ThirdPartyResourceData.encode
      (⟨⟨goString "Foo", goString "v1"⟩, "obj", some [123, 125]⟩ :
        ThirdPartyResourceData textExternal)).member "name" = some (Json.str "e30=") := by
  have h64 : String.mk (base64Encode [123, 125]) = "e30=" := by decide
  have hk : goString "Foo" ≠ [] := by decide
  have hv : goString "v1" ≠ [] := by decide
  have henc : ThirdPartyResourceData.encode
      (⟨⟨goString "Foo", goString "v1"⟩, "obj", some [123, 125]⟩ :
        ThirdPartyResourceData textExternal)
      = Json.obj [("kind", Json.str "Foo"), ("apiVersion", Json.str "v1"),
          ("metadata", Json.str "obj"), ("name", Json.str "e30=")] := by
    simp [ThirdPartyResourceData.encode, ThirdPartyResourceData.fields, TypeMeta.fields,
      marshalFields, Field.omitted, encodeString_goString, encodeBytes, h64, hk, hv,
      Slice.len, textExternal, textCodec]
  rw [henc]
  exact ⟨rfl, rfl, rfl⟩

/-! ## The scale reference (C8) -/

/-- C8, counterexample: the zero `HorizontalPodAutoscalerSpec`, which is also
the `Spec` of the zero `HorizontalPodAutoscaler`, has no `ScaleRef`; it is a
well-formed value, its record carries `scaleRef` as `null`, and both that
record and the empty record decode to a specification without `ScaleRef`. -/
theorem HorizontalPodAutoscalerSpec.zero_has_no_scaleRef :
    (HorizontalPodAutoscalerSpec.zero textExternal).ScaleRef = none ∧
    (HorizontalPodAutoscaler.zero textExternal).Spec.ScaleRef = none ∧
    (HorizontalPodAutoscalerSpec.zero textExternal).Valid ∧
    (HorizontalPodAutoscalerSpec.encode (HorizontalPodAutoscalerSpec.zero textExternal)).member
      "scaleRef" = some Json.null ∧
    (HorizontalPodAutoscalerSpec.decode textExternal
      (HorizontalPodAutoscalerSpec.encode (HorizontalPodAutoscalerSpec.zero textExternal))).map
        (fun s => s.ScaleRef) = some none ∧
    (HorizontalPodAutoscalerSpec.decode textExternal (Json.obj [])).map
        (fun s => s.ScaleRef) = some none := by
  have hv : (HorizontalPodAutoscalerSpec.zero textExternal).Valid :=
    ⟨fun _ h => (by cases h), by decide, by decide, ⟨nil_valid, rfl⟩⟩
  refine ⟨rfl, rfl, hv, rfl, ?_, rfl⟩
  rw [HorizontalPodAutoscalerSpec_decode_encode _ hv]
  rfl

/-- C8, amended: `ScaleRef` is a nilable reference.  What holds for every
`HorizontalPodAutoscalerSpec` is that its record always carries the key
`scaleRef` (the tag has no `omitempty`), as `null` exactly when `ScaleRef` is
absent, and that decoding the record of a well-formed specification (the
strings of the reference and the resource name are UTF-8 text, the counts are
Go `int`s, the quantity is read back by its codec) gives back its `ScaleRef`,
present or absent. -/
theorem HorizontalPodAutoscalerSpec.scaleRef_key_always_written (E : External)
    (x : HorizontalPodAutoscalerSpec E) :
    x.encode.member "scaleRef" = some (encodePtr SubresourceReference.encode x.ScaleRef) ∧
    (x.encode.member "scaleRef" = some Json.null ↔ x.ScaleRef = none) ∧
    (x.Valid →
      (HorizontalPodAutoscalerSpec.decode E x.encode).map (fun s => s.ScaleRef)
        = some x.ScaleRef) := by
  have h1 : x.encode.member "scaleRef"
      = some (encodePtr SubresourceReference.encode x.ScaleRef) := by
    simp [HorizontalPodAutoscalerSpec.encode, HorizontalPodAutoscalerSpec.fields,
      marshalFields, Field.omitted, Json.member, Json.lookup]
  refine ⟨h1, ?_, fun hv => ?_⟩
  · rw [h1]
    cases hr : x.ScaleRef with
    | none => simp [encodePtr]
    | some r => simp [encodePtr, SubresourceReference.encode]
  · rw [HorizontalPodAutoscalerSpec_decode_encode x hv]
    rfl

/-- C8, witness: a specification that refers to the scale of replication
controller `web` is read back with that reference. -/
theorem HorizontalPodAutoscalerSpec.scaleRef_key_always_written_witness :
    (HorizontalPodAutoscalerSpec.decode textExternal
      (HorizontalPodAutoscalerSpec.encode
        (⟨some ⟨goString "ReplicationController", goString "default", goString "web", [],
            goString "scale"⟩, 2, 10, ⟨goString "cpu", "500m"⟩⟩ :
          HorizontalPodAutoscalerSpec textExternal))).map
      (fun s => s.ScaleRef)
      = some (some ⟨goString "ReplicationController", goString "default", goString "web", [],
          goString "scale"⟩) :=
  (HorizontalPodAutoscalerSpec.scaleRef_key_always_written textExternal
    ⟨some ⟨goString "ReplicationController", goString "default", goString "web", [],
      goString "scale"⟩, 2, 10, ⟨goString "cpu", "500m"⟩⟩).2.2
    ⟨fun r h => (by
        cases h
        exact ⟨goString_valid _, goString_valid _, goString_valid _, nil_valid,
          goString_valid _⟩),
      by decide, by decide, ⟨goString_valid _, rfl⟩⟩

/-! ## Adding a version (C9) -/

/-- C9: adding a version `v` to a registration leaves every stored data object
(envelope and payload) as it was, leaves the type identity, the metadata and
the description of the resource as they were, keeps the previous versions as
the leading entries of the new version list in the same order, with `v` after
them, and keeps every version that was supported supported. -/
theorem Registration.addVersion_frame (E : External) (s : Registration E) (v : APIVersion) :
    (s.addVersion v).stored = s.stored ∧
    (s.addVersion v).resource.TypeMeta = s.resource.TypeMeta ∧
    (s.addVersion v).resource.ObjectMeta = s.resource.ObjectMeta ∧
    (s.addVersion v).resource.Description = s.resource.Description ∧
    (s.addVersion v).resource.Versions.elems = s.resource.Versions.elems ++ [v] ∧
    (s.addVersion v).resource.Versions.elems.take s.resource.Versions.len
      = s.resource.Versions.elems ∧
    (∀ name, s.supports name → (s.addVersion v).supports name) := by
  refine ⟨rfl, rfl, rfl, rfl, rfl, ?_, ?_⟩
  · simp [Registration.addVersion, Slice.elems, Slice.len]
  · intro name h
    simp only [Registration.supports, ThirdPartyResource.versionNames, Registration.addVersion,
      Slice.elems, Option.getD_some, List.map_append, List.mem_append] at h ⊢
    exact Or.inl h

/-- C9, witness: versions `v1`, `v2` are registered, a data object is stored
under `v1`, then `v3` is added; `v1` is still supported and the stored object
is the same. -/
theorem Registration.addVersion_frame_witness :
    (Registration.addVersion
      (⟨⟨⟨[], []⟩, "foo", [], some [⟨goString "v1", []⟩, ⟨goString "v2", []⟩]⟩,
        [(goString "v1", ⟨⟨goString "Foo", goString "v1"⟩, "obj", some [123, 125]⟩)]⟩ :
          Registration textExternal)
      ⟨goString "v3", []⟩).supports (goString "v1") ∧
    (Registration.addVersion
      (⟨⟨⟨[], []⟩, "foo", [], some [⟨goString "v1", []⟩, ⟨goString "v2", []⟩]⟩,
        [(goString "v1", ⟨⟨goString "Foo", goString "v1"⟩, "obj", some [123, 125]⟩)]⟩ :
          Registration textExternal)
      ⟨goString "v3", []⟩).stored
      = [(goString "v1", ⟨⟨goString "Foo", goString "v1"⟩, "obj", some [123, 125]⟩)] :=
  ⟨(Registration.addVersion_frame textExternal
      ⟨⟨⟨[], []⟩, "foo", [], some [⟨goString "v1", []⟩, ⟨goString "v2", []⟩]⟩,
        [(goString "v1", ⟨⟨goString "Foo", goString "v1"⟩, "obj", some [123, 125]⟩)]⟩
      ⟨goString "v3", []⟩).2.2.2.2.2.2 (goString "v1") (List.mem_cons_self _ _),
   (Registration.addVersion_frame textExternal
      ⟨⟨⟨[], []⟩, "foo", [], some [⟨goString "v1", []⟩, ⟨goString "v2", []⟩]⟩,
        [(goString "v1", ⟨⟨goString "Foo", goString "v1"⟩, "obj", some [123, 125]⟩)]⟩
      ⟨goString "v3", []⟩).1⟩

/-! ## Distinct keys (C10) -/

/-- C10: in every struct of `types.go` the keys named by the tags (with the
promoted keys `kind` and `apiVersion` of an embedded type identity) are
pairwise distinct, and so are the keys of every record written.  The keys of a
`ThirdPartyResourceData` are `kind`, `apiVersion`, `metadata`, `name`, so the
payload key `name` differs from the other three; the five keys of a
`SubresourceReference` are all different. -/
theorem tag_keys_distinct (E : External) :
    (∀ x : ScaleSpec, (tagKeys x.fields).Nodup ∧ x.encode.recordKeys.Nodup) ∧
    (∀ x : ScaleStatus, (tagKeys x.fields).Nodup ∧ x.encode.recordKeys.Nodup) ∧
    (∀ x : Scale E, (tagKeys x.fields).Nodup ∧ x.encode.recordKeys.Nodup) ∧
    (∀ x : ReplicationControllerDummy,
      (tagKeys x.fields).Nodup ∧ x.encode.recordKeys.Nodup) ∧
    (∀ x : SubresourceReference, (tagKeys x.fields).Nodup ∧ x.encode.recordKeys.Nodup) ∧
    (∀ x : ResourceConsumption E, (tagKeys x.fields).Nodup ∧ x.encode.recordKeys.Nodup) ∧
    (∀ x : HorizontalPodAutoscalerSpec E,
      (tagKeys x.fields).Nodup ∧ x.encode.recordKeys.Nodup) ∧
    (∀ x : HorizontalPodAutoscalerStatus E,
      (tagKeys x.fields).Nodup ∧ x.encode.recordKeys.Nodup) ∧
    (∀ x : HorizontalPodAutoscaler E,
      (tagKeys x.fields).Nodup ∧ x.encode.recordKeys.Nodup) ∧
    (∀ x : HorizontalPodAutoscalerList E,
      (tagKeys x.fields).Nodup ∧ x.encode.recordKeys.Nodup) ∧
    (∀ x : APIVersion, (tagKeys x.fields).Nodup ∧ x.encode.recordKeys.Nodup) ∧
    (∀ x : ThirdPartyResource E, (tagKeys x.fields).Nodup ∧ x.encode.recordKeys.Nodup) ∧
    (∀ x : ThirdPartyResourceList E,
      (tagKeys x.fields).Nodup ∧ x.encode.recordKeys.Nodup) ∧
    (∀ x : ThirdPartyResourceData E,
      (tagKeys x.fields).Nodup ∧ x.encode.recordKeys.Nodup) ∧
    (∀ x : ThirdPartyResourceData E,
      tagKeys x.fields = ["kind", "apiVersion", "metadata", "name"] ∧
      "name" ∉ ["kind", "apiVersion", "metadata"]) ∧
    (∀ x : SubresourceReference,
      tagKeys x.fields = ["kind", "namespace", "name", "apiVersion", "subresource"] ∧
      ["kind", "namespace", "name", "apiVersion", "subresource"].Nodup) := by
  have key : ∀ fs : List Field, (tagKeys fs).Nodup →
      (tagKeys fs).Nodup ∧ (Json.obj (marshalFields fs)).recordKeys.Nodup :=
    fun fs h => ⟨h, keys_marshalFields_nodup fs h⟩
  refine ⟨fun x => key _ ?_, fun x => key _ ?_, fun x => key _ ?_, fun x => key _ ?_,
    fun x => key _ ?_, fun x => key _ ?_, fun x => key _ ?_, fun x => key _ ?_,
    fun x => key _ ?_, fun x => key _ ?_, fun x => key _ ?_, fun x => key _ ?_,
    fun x => key _ ?_, fun x => key _ ?_, fun x => ⟨rfl, by decide⟩,
    fun x => ⟨rfl, by decide⟩⟩
  · rw [ScaleSpec_tagKeys_eq]; decide
  · rw [ScaleStatus_tagKeys_eq]; decide
  · rw [Scale_tagKeys_eq]; decide
  · rw [ReplicationControllerDummy_tagKeys_eq]; decide
  · rw [SubresourceReference_tagKeys_eq]; decide
  · rw [ResourceConsumption_tagKeys_eq]; decide
  · rw [HorizontalPodAutoscalerSpec_tagKeys_eq]; decide
  · rw [HorizontalPodAutoscalerStatus_tagKeys_eq]; decide
  · rw [HorizontalPodAutoscaler_tagKeys_eq]; decide
  · rw [HorizontalPodAutoscalerList_tagKeys_eq]; decide
  · rw [APIVersion_tagKeys_eq]; decide
  · rw [ThirdPartyResource_tagKeys_eq]; decide
  · rw [ThirdPartyResourceList_tagKeys_eq]; decide
  · rw [ThirdPartyResourceData_tagKeys_eq]; decide

end expapi
